import Mathlib

/-!
# ScanFlow: job model, filename sanitizer, button watcher, blank-page detector

A shallow embedding of parts of the ScanFlow server
(`server/internal/jobs/job.go`, `server/internal/api/server.go`,
`server/internal/processor/pipeline.go`, `server/internal/processor/image.go`,
`server/internal/scanner/button.go`) together with theorems about them.

Conventions.
* Go `int`, `time.Duration` and monotonic clock readings are `Int`; bytes are `Nat`.
* `*Page` values are addresses (`Ptr`) into a heap of `Page` objects, because
  `Job.DeletePage` renumbers pages in place through the pointers it stores.
* Every method of `Job` runs under the job's mutex, so a concurrent execution is
  a sequence of whole method calls; the model is that sequence.
* `Job.UpdatedAt` is written from `time.Now()` by the mutators; the time is an
  explicit argument `now`.
-/

namespace ScanFlow

/-! ## jobs/job.go -/

/-- The six values of `JobStatus`. -/
inductive JobStatus where
  | StatusPending
  | StatusScanning
  | StatusProcessing
  | StatusCompleted
  | StatusFailed
  | StatusCancelled
  deriving DecidableEq, Repr

open JobStatus

/-- Completed, Failed and Cancelled are the terminal states of the lifecycle. -/
def JobStatus.isTerminal : JobStatus → Bool
  | StatusCompleted => true
  | StatusFailed => true
  | StatusCancelled => true
  | _ => false

/-- The data fields of `Page`. `Image` and `Err` are interface values; only
whether they are nil is observed by the code modelled here. -/
structure Page where
  Number : Int
  Width : Int
  Height : Int
  Format : String
  Size : Int
  Path : String
  hasImage : Bool
  hasErr : Bool
  deriving DecidableEq, Repr

/-- Address of a `Page` object (`*Page`, non-nil). -/
abbrev Ptr := Nat

/-- The `Page` objects, by address. -/
abbrev Heap := Ptr → Page

/-- Field write `p.Number = v` through a pointer. -/
def Heap.setNumber (h : Heap) (p : Ptr) (v : Int) : Heap :=
  fun q => if q = p then { h q with Number := v } else h q

/-- The fields of `Job` that the modelled methods read or write. `hasCancel`
says that `cancel` is non-nil, `cancelCalls` counts the calls of it. -/
structure Job where
  Status : JobStatus
  Pages : List Ptr
  Error : String
  UpdatedAt : Int
  hasCancel : Bool
  cancelCalls : Nat
  deriving DecidableEq, Repr

/-- A job together with the page objects its `Pages` point to. -/
structure JobState where
  job : Job
  heap : Heap

/-- Go `NewJob`: status Pending, no pages, no cancel function. -/
def NewJob (heap : Heap) (now : Int) : JobState :=
  { job := { Status := StatusPending, Pages := [], Error := "", UpdatedAt := now,
             hasCancel := false, cancelCalls := 0 },
    heap := heap }

/-- Go `Job.SetStatus`. -/
def SetStatus (s : JobState) (status : JobStatus) (now : Int) : JobState :=
  { s with job := { s.job with Status := status, UpdatedAt := now } }

/-- Go `Job.SetError`. -/
def SetError (s : JobState) (err : String) (now : Int) : JobState :=
  { s with job := { s.job with Status := StatusFailed, Error := err, UpdatedAt := now } }

/-- Go `Job.AddPage`. -/
def AddPage (s : JobState) (page : Ptr) (now : Int) : JobState :=
  { s with job := { s.job with Pages := s.job.Pages ++ [page], UpdatedAt := now } }

/-- The search of `DeletePage`: `for i, p := range j.Pages { if p.Number == pageNum ...`,
giving the first index whose page carries the number. -/
def findPage (heap : Heap) (pageNum : Int) : List Ptr → Nat → Option Nat
  | [], _ => none
  | p :: rest, i =>
    if (heap p).Number = pageNum then some i else findPage heap pageNum rest (i + 1)

/-- The loop `for k := i; k < len(j.Pages); k++ { j.Pages[k].Number = k + 1 }`,
run over the pages from index `k` on. -/
def renumber (heap : Heap) : Nat → List Ptr → Heap
  | _, [] => heap
  | k, p :: rest => renumber (heap.setNumber p ((k : Int) + 1)) (k + 1) rest

/-- Go `Job.DeletePage`: the returned flag and the state afterwards. -/
def DeletePage (s : JobState) (pageNum : Int) (now : Int) : Bool × JobState :=
  match findPage s.heap pageNum s.job.Pages 0 with
  | none => (false, s)
  | some i =>
    let pages := s.job.Pages.take i ++ s.job.Pages.drop (i + 1)
    (true, { job := { s.job with Pages := pages, UpdatedAt := now },
             heap := renumber s.heap i (pages.drop i) })

/-- Go `Job.PageCount`. -/
def PageCount (s : JobState) : Nat := s.job.Pages.length

/-- Go `Job.SetCancel` (with a non-nil function, as `processJob` passes). -/
def SetCancel (s : JobState) : JobState :=
  { s with job := { s.job with hasCancel := true } }

/-- Go `Job.Cancel`. -/
def Cancel (s : JobState) (now : Int) : JobState :=
  { s with job := { s.job with
      cancelCalls := if s.job.hasCancel then s.job.cancelCalls + 1 else s.job.cancelCalls,
      Status := StatusCancelled, UpdatedAt := now } }

/-- The numbers stored in the job's pages, in list order. -/
def pageNumbers (s : JobState) : List Int :=
  s.job.Pages.map (fun p => (s.heap p).Number)

/-- The list `1, 2, ..., n`. -/
def oneTo (n : Nat) : List Int := (List.range n).map (fun (k : Nat) => (k : Int) + 1)

/-! ## api/handlers.go, api/server.go: the callers of the status methods -/

/-- Go `handleCancelJob` for a job the queue knows: `Queue.Cancel` calls `job.Cancel()`. -/
def handleCancelJob (s : JobState) (now : Int) : JobState := Cancel s now

/-- Go `handleContinueScan`: rejected (400) unless the job is Scanning or Pending. -/
def handleContinueScan (s : JobState) (now : Int) : JobState :=
  if s.job.Status ≠ StatusScanning ∧ s.job.Status ≠ StatusPending then s
  else SetStatus s StatusScanning now

/-- Go `handleFinishScan` for a job the queue knows: `job.SetStatus(StatusProcessing)`. -/
def handleFinishScan (s : JobState) (now : Int) : JobState :=
  SetStatus s StatusProcessing now

/-- What `processJob` meets outside the job: the job's profile name as the verb
`%q` prints it, whether the profile exists, the error of `ScanBatch` (if any),
the pages the scan channel delivers, and the errors of `Process` and of `Send`
(if any). -/
structure WorkerEnv where
  quotedProfile : String
  profileFound : Bool
  scanErr : Option String
  scanned : List Ptr
  processErr : Option String
  sendErr : Option String

/-- A run of the worker on one job: the current state, the state after each
call made so far (oldest first), and the number of clock readings taken. -/
structure Run where
  cur : JobState
  trace : List JobState
  ticks : Nat

/-- The run that has made no call yet. -/
def Run.start (s : JobState) : Run := { cur := s, trace := [], ticks := 0 }

/-- One method call on the job; it reads the time `clock ticks`. -/
def Run.call (clock : Nat → Int) (r : Run) (f : JobState → Int → JobState) : Run :=
  let s := f r.cur (clock r.ticks)
  { cur := s, trace := r.trace ++ [s], ticks := r.ticks + 1 }

/-- The loop `for page := range pages` of `processJob`: pages carrying an error
are skipped, the others appended. -/
def addScanned (clock : Nat → Int) (r : Run) (pages : List Ptr) : Run :=
  pages.foldl
    (fun r page => if (r.cur.heap page).hasErr then r
                   else Run.call clock r (fun s now => AddPage s page now)) r

/-- Go `Server.processJob`, as the calls it makes on the job. `Process` and `Send`
call no status method of the job; they enter only through their errors. -/
def processJob (env : WorkerEnv) (clock : Nat → Int) (s : JobState) : Run :=
  let r := Run.call clock (Run.start s) (fun s _ => SetCancel s)
  if !env.profileFound then
    Run.call clock r
      (fun s now => SetError s ("profile " ++ env.quotedProfile ++ " not found") now)
  else
    let r := Run.call clock r (fun s now => SetStatus s StatusScanning now)
    match env.scanErr with
    | some e => Run.call clock r (fun s now => SetError s ("scan failed: " ++ e) now)
    | none =>
      let r := addScanned clock r env.scanned
      if PageCount r.cur = 0 then
        Run.call clock r (fun s now => SetError s "no pages scanned" now)
      else
        let r := Run.call clock r (fun s now => SetStatus s StatusProcessing now)
        match env.processErr with
        | some e => Run.call clock r (fun s now => SetError s ("processing failed: " ++ e) now)
        | none =>
          match env.sendErr with
          | some e => Run.call clock r (fun s now => SetError s ("output failed: " ++ e) now)
          | none => Run.call clock r (fun s now => SetStatus s StatusCompleted now)

/-- The statuses a run went through, oldest first. -/
def Run.statuses (r : Run) : List JobStatus := r.trace.map (fun s => s.job.Status)

/-- In a list of successive statuses: a terminal status is never followed by a
different status. -/
def TerminalSticky (l : List JobStatus) : Prop :=
  l.Pairwise (fun a b => a.isTerminal = true → b = a)

/-- No state of the run so far, nor the current one, is terminal. -/
def Run.Live (r : Run) : Prop :=
  r.cur.job.Status.isTerminal = false ∧ ∀ st ∈ r.statuses, st.isTerminal = false

/-- A heap whose page at address `p` carries the number `p + 1`. -/
def heapSeq : Heap := fun p =>
  { Number := (p : Int) + 1, Width := 100, Height := 200, Format := "", Size := 0,
    Path := "", hasImage := false, hasErr := false }

/-- A heap whose page at address `p` carries the number `p + 3`. -/
def heapOff : Heap := fun p =>
  { Number := (p : Int) + 3, Width := 100, Height := 200, Format := "", Size := 0,
    Path := "", hasImage := false, hasErr := false }

/-- A run in which everything succeeds and two pages are scanned. -/
def envOk : WorkerEnv :=
  { quotedProfile := "\"standard\"", profileFound := true, scanErr := none,
    scanned := [0, 1], processErr := none, sendErr := none }

/-- The job of `TestJobAddDeletePage`: pages numbered 1, 2, 3. -/
def jobThree : JobState :=
  AddPage (AddPage (AddPage (NewJob heapSeq 0) 0 1) 1 2) 2 3

/-- A job holding two pages numbered 3 and 4. -/
def jobOff : JobState := AddPage (AddPage (NewJob heapOff 0) 0 1) 1 2

/-! ## processor/pipeline.go -/

/-- The bytes of the Go string literal "document". -/
def document : List Nat := ['d', 'o', 'c', 'u', 'm', 'e', 'n', 't'].map Char.toNat

/-- The first test of the loop body of `sanitizeFilename`: the byte is kept. -/
def isSafeByte (c : Nat) : Bool :=
  (c ≥ 'a'.toNat && c ≤ 'z'.toNat) || (c ≥ 'A'.toNat && c ≤ 'Z'.toNat) ||
  (c ≥ '0'.toNat && c ≤ '9'.toNat) ||
  c == '-'.toNat || c == '_'.toNat || c == '.'.toNat

/-- The loop of `sanitizeFilename` over the bytes not yet read; `result` is
the slice built so far. -/
def sanitizeLoop : List Nat → List Nat → List Nat
  | result, [] => result
  | result, c :: rest =>
    if isSafeByte c then sanitizeLoop (result ++ [c]) rest
    else if c = ' '.toNat then sanitizeLoop (result ++ ['_'.toNat]) rest
    else sanitizeLoop result rest

/-- Go `sanitizeFilename`, on the bytes of the string. -/
def sanitizeFilename (name : List Nat) : List Nat :=
  let result := sanitizeLoop [] name
  if result.length = 0 then document else result

/-- Membership in `[A-Za-z0-9._-]`, as the specification writes the set. -/
def inAllowedSet (c : Nat) : Bool :=
  ['a', 'b', 'c', 'd', 'e', 'f', 'g', 'h', 'i', 'j', 'k', 'l', 'm', 'n', 'o', 'p', 'q', 'r',
   's', 't', 'u', 'v', 'w', 'x', 'y', 'z',
   'A', 'B', 'C', 'D', 'E', 'F', 'G', 'H', 'I', 'J', 'K', 'L', 'M', 'N', 'O', 'P', 'Q', 'R',
   'S', 'T', 'U', 'V', 'W', 'X', 'Y', 'Z',
   '0', '1', '2', '3', '4', '5', '6', '7', '8', '9', '.', '_', '-'].any
    (fun a => a.toNat == c)

/-- The sanitizer in the words of the specification: every space becomes an
underscore, every byte outside `[A-Za-z0-9._-]` is removed, the rest keeps its
order; an empty result is replaced by "document". -/
def sanitizeSpec (name : List Nat) : List Nat :=
  let kept := (name.map (fun c => if c = ' '.toNat then '_'.toNat else c)).filter inAllowedSet
  if kept = [] then document else kept

/-! ## scanner/button.go -/

/-- Largest `time.Duration` (an `int64` of nanoseconds). -/
def maxDuration : Int := 9223372036854775807

/-- Smallest `time.Duration`. -/
def minDuration : Int := -9223372036854775808

/-- Go `Time.Sub` on two readings of the monotonic clock: their difference,
saturated to the range of `Duration`. -/
def timeSub (t u : Int) : Int :=
  if t - u > maxDuration then maxDuration
  else if t - u < minDuration then minDuration
  else t - u

/-- The fields of `ButtonWatcher` that `poll` reads or writes. `onShortPress`
and `onLongPress` say whether the callback is non-nil. -/
structure ButtonWatcher where
  longPressDur : Int
  onShortPress : Bool
  onLongPress : Bool
  beepEnabled : Bool
  pressStart : Int
  isPressed : Bool
  longPressBeep : Bool
  deriving DecidableEq, Repr

/-- What a poll does to the outside: the beep, or the start of one callback. -/
inductive Effect where
  | beep
  | shortPress
  | longPress
  deriving DecidableEq, Repr

/-- Go `NewButtonWatcher`: a zero long-press duration becomes one second. -/
def NewButtonWatcher (longPressDuration : Int) (beepOnLongPress : Bool)
    (onShort onLong : Bool) : ButtonWatcher :=
  { longPressDur := if longPressDuration = 0 then 1000000000 else longPressDuration,
    onShortPress := onShort, onLongPress := onLong, beepEnabled := beepOnLongPress,
    pressStart := 0, isPressed := false, longPressBeep := false }

/-- Go `ButtonWatcher.poll`. `state` is what `GetButtonState` returns (the flag, or
an error) and `now` the reading of `time.Now()`. -/
def poll (w : ButtonWatcher) (state : Except String Bool) (now : Int) :
    ButtonWatcher × List Effect :=
  match state with
  | .error _ => (w, [])
  | .ok pressed =>
    if pressed && !w.isPressed then
      ({ w with pressStart := now, isPressed := true, longPressBeep := false }, [])
    else if pressed && w.isPressed then
      if w.beepEnabled && !w.longPressBeep &&
          decide (timeSub now w.pressStart ≥ w.longPressDur) then
        ({ w with longPressBeep := true }, [Effect.beep])
      else (w, [])
    else if !pressed && w.isPressed then
      let duration := timeSub now w.pressStart
      if duration ≥ w.longPressDur then
        ({ w with isPressed := false }, if w.onLongPress then [Effect.longPress] else [])
      else
        ({ w with isPressed := false }, if w.onShortPress then [Effect.shortPress] else [])
    else (w, [])

/-- Successive polls, each with what it reads and when; the effects in order. -/
def pollAll (w : ButtonWatcher) : List (Except String Bool × Int) → ButtonWatcher × List Effect
  | [] => (w, [])
  | (state, now) :: rest =>
    let r := poll w state now
    let r2 := pollAll r.1 rest
    (r2.1, r.2 ++ r2.2)

/-- The callbacks among the effects. -/
def callbacks (l : List Effect) : List Effect := l.filter (fun e => e ≠ Effect.beep)

/-- A poll that reads `pressed = false` without error. -/
def seesReleased : Except String Bool → Bool
  | .ok false => true
  | _ => false

/-- A watcher with both callbacks set and a threshold of one second, in the
middle of a press that began at time 0. -/
def heldWatcher : ButtonWatcher :=
  (poll (NewButtonWatcher 0 false true true) (.ok true) 0).1

/-! ## processor/image.go -/

/-- A `color.Color`: either a `color.Gray` or any other colour, given by what its
`RGBA()` returns (16-bit, alpha-premultiplied channels). -/
inductive Color where
  | gray (y : Nat)
  | rgba (r g b a : Nat)
  deriving DecidableEq, Repr

/-- The field `Y` of `color.GrayModel.Convert(c).(color.Gray)`, as the Go standard
library defines the conversion: a `Gray` is returned as it is, any other colour
gives `uint8((19595*r + 38470*g + 7471*b + 1<<15) >> 24)`. -/
def grayY : Color → Nat
  | .gray y => y
  | .rgba r g b _ => ((19595 * r + 38470 * g + 7471 * b + 2 ^ 15) / 2 ^ 24) % 256

/-- An `image.Image`: its bounds and its pixels. -/
structure Image where
  minX : Int
  minY : Int
  maxX : Int
  maxY : Int
  At : Int → Int → Color

/-- Go `Rectangle.Dx`. -/
def Image.Dx (img : Image) : Int := img.maxX - img.minX

/-- Go `Rectangle.Dy`. -/
def Image.Dy (img : Image) : Int := img.maxY - img.minY

/-- The inner loop of `isBlankPage`, `for x := ...; x < bounds.Max.X; x += 4`,
from `x` on, in row `y`. -/
def countRow (img : Image) (y : Int) (x : Int) (whitePixels : Int) : Int :=
  if x < img.maxX then
    countRow img y (x + 4)
      (if grayY (img.At x y) > 240 then whitePixels + 1 else whitePixels)
  else whitePixels
termination_by (img.maxX - x).toNat
decreasing_by omega

/-- The outer loop of `isBlankPage`, `for y := ...; y < bounds.Max.Y; y += 4`,
from `y` on. -/
def countRows (img : Image) (y : Int) (whitePixels : Int) : Int :=
  if y < img.maxY then
    countRows img (y + 4) (countRow img y img.minX whitePixels)
  else whitePixels
termination_by (img.maxY - y).toNat
decreasing_by omega

/-- Go `isBlankPage`. Go's `/` on `int` truncates (`Int.tdiv`); the `float64`
quotient and comparison are taken in the rationals, without the rounding of the
division. The two agree unless the exact quotient and its rounding lie on
different sides of the threshold; they agree in particular when the quotient is
at least 1 and the threshold at most 1, and when either count is zero. -/
def isBlankPage (img : Image) (threshold : ℚ) : Bool :=
  let totalPixels := img.Dx * img.Dy
  if totalPixels = 0 then true
  else
    let whitePixels := countRows img img.minY 0
    let sampledPixels := (img.Dx.tdiv 4) * (img.Dy.tdiv 4)
    if sampledPixels = 0 then true
    else
      let ratio : ℚ := (whitePixels : ℚ) / (sampledPixels : ℚ)
      decide (ratio ≥ threshold)

/-- Go `removeBlankPages`: `load` is `loadImage` (`none` when it fails); the paths
kept, or `none` when an image cannot be loaded. -/
def removeBlankPages (load : String → Option Image) (paths : List String) (threshold : ℚ) :
    Option (List String) :=
  let threshold := if threshold ≤ 0 then 99 / 100 else threshold
  paths.foldl
    (fun acc path =>
      match acc with
      | none => none
      | some result =>
        match load path with
        | none => none
        | some img => if !isBlankPage img threshold then some (result ++ [path]) else some result)
    (some [])

/-- The pixels `isBlankPage` reads: every 4th column and every 4th row of the
bounds, starting at the minimum corner. -/
def samplePoints (img : Image) : List (Int × Int) :=
  (List.range ((img.Dy.toNat + 3) / 4)).flatMap (fun (j : Nat) =>
    (List.range ((img.Dx.toNat + 3) / 4)).map (fun (i : Nat) =>
      (img.minX + 4 * (i : Int), img.minY + 4 * (j : Int))))

/-- The number `s` of pixels sampled. -/
def sampledCount (img : Image) : Nat := (samplePoints img).length

/-- The number `w` of sampled pixels whose luminance exceeds 240. -/
def whiteCount (img : Image) : Nat :=
  ((samplePoints img).filter (fun p => grayY (img.At p.1 p.2) > 240)).length

/-- Go `color.Black` as `RGBA()` returns it. -/
def black : Color := Color.rgba 0 0 0 65535

/-- Go `color.White` as `RGBA()` returns it. -/
def white : Color := Color.rgba 65535 65535 65535 65535

/-- Go `Color.RGBA()`: a `color.Gray{Y}` returns `Y * 0x101` on the three colour
channels and full alpha, any other colour its four channels. -/
def Color.RGBA : Color → Nat × Nat × Nat × Nat
  | .gray y => (y * 257, y * 257, y * 257, 65535)
  | .rgba r g b a => (r, g, b, a)

/-- A white pixel, in whatever colour model the image has: `RGBA()` returns full
intensity on the three colour channels (`color.White`, `color.Gray{255}`,
an opaque white `color.RGBA` or `color.NRGBA`, ...). -/
def Color.isWhite (c : Color) : Bool :=
  c.RGBA.1 = 65535 ∧ c.RGBA.2.1 = 65535 ∧ c.RGBA.2.2.1 = 65535

/-- A 1×1 image whose pixel is black. -/
def blackDot : Image := { minX := 0, minY := 0, maxX := 1, maxY := 1, At := fun _ _ => black }

/-- A 5×5 image, black except for a white pixel at the origin. -/
def cornerLit : Image :=
  { minX := 0, minY := 0, maxX := 5, maxY := 5,
    At := fun x y => if x = 0 ∧ y = 0 then white else black }

/-! ## scanner/scanner.go -/

/-- The errors a `Scanner` method returns: the three package-level error values
and whatever error the backend returned. -/
inductive ScanErr where
  | ErrNotConnected
  | ErrBusy
  | ErrNoDevice
  | backend (msg : String)
  deriving DecidableEq, Repr

/-- A value passed to or returned by the backend as `interface{}`. -/
inductive OptVal where
  | int (v : Int)
  | str (v : String)
  | float (v : ℚ)
  | bool (v : Bool)
  | null
  deriving DecidableEq

/-- A call on the `ScannerBackend` of a scanner. -/
inductive Call where
  | Open (deviceName : String)
  | CloseDevice
  | SetOption (name : String) (value : OptVal)
  | GetOption (name : String)
  | ReadImage
  deriving DecidableEq

/-- A `ScannerBackend`: what each method answers, given the calls made on the
backend before (its state is a function of them). For `Open` and `SetOption`
the answer is the error, `none` for nil. -/
structure Backend where
  Open : List Call → String → Option String
  SetOption : List Call → String → OptVal → Option String
  GetOption : List Call → String → Except String OptVal
  ReadImage : List Call → Except String Image

/-- Go `ScanOptions` of the scanner package; the two `float64` fields are rationals. -/
structure ScanOptions where
  Resolution : Int
  Mode : String
  Source : String
  PageWidth : ℚ
  PageHeight : ℚ
  Brightness : Int
  Contrast : Int

/-- The fields of `Scanner` that the modelled methods read or write, and `calls`,
the calls made on its backend so far, oldest first. -/
structure Scanner where
  deviceName : String
  connected : Bool
  scanning : Bool
  calls : List Call
  deriving DecidableEq

/-- Go `New`: not connected, not scanning, nothing called on the backend yet. -/
def New (deviceName : String) : Scanner :=
  { deviceName := deviceName, connected := false, scanning := false, calls := [] }

/-- One call of `s.backend.SetOption(name, value)`: the scanner with the call
recorded, and the error returned. -/
def backendSet (b : Backend) (s : Scanner) (name : String) (value : OptVal) :
    Scanner × Option String :=
  ({ s with calls := s.calls ++ [Call.SetOption name value] }, b.SetOption s.calls name value)

/-- Go `Scanner.Open`. -/
def Scanner.Open (b : Backend) (s : Scanner) (deviceName : String) : Scanner × Option ScanErr :=
  let s1 := { s with calls := s.calls ++ [Call.Open deviceName] }
  match b.Open s.calls deviceName with
  | some e => (s1, some (ScanErr.backend e))
  | none => ({ s1 with connected := true, deviceName := deviceName }, none)

/-- Go `Scanner.Close`. -/
def Scanner.Close (s : Scanner) : Scanner :=
  { s with calls := s.calls ++ [Call.CloseDevice], connected := false }

/-- Go `Scanner.SetOptions`: the scanner afterwards and the error returned. -/
def SetOptions (b : Backend) (s : Scanner) (opts : ScanOptions) : Scanner × Option ScanErr :=
  if !s.connected then (s, some ScanErr.ErrNotConnected)
  else
    let r1 := if opts.Resolution > 0 then backendSet b s "resolution" (OptVal.int opts.Resolution)
              else (s, none)
    match r1.2 with
    | some e => (r1.1, some (ScanErr.backend e))
    | none =>
      let r2 := if opts.Mode ≠ "" then backendSet b r1.1 "mode" (OptVal.str opts.Mode)
                else (r1.1, none)
      match r2.2 with
      | some e => (r2.1, some (ScanErr.backend e))
      | none =>
        let r3 := if opts.Source ≠ "" then backendSet b r2.1 "source" (OptVal.str opts.Source)
                  else (r2.1, none)
        match r3.2 with
        | some e => (r3.1, some (ScanErr.backend e))
        | none =>
          let s4 := if opts.PageHeight = 0 then (backendSet b r3.1 "page-height" (OptVal.int 0)).1
                    else if opts.PageHeight > 0 then
                      (backendSet b r3.1 "page-height" (OptVal.float opts.PageHeight)).1
                    else r3.1
          let s5 := if opts.PageWidth > 0 then
                      (backendSet b s4 "page-width" (OptVal.float opts.PageWidth)).1
                    else s4
          (s5, none)

/-- The first critical section of `ScanBatch`: the two checks and `s.scanning = true`. -/
def scanEnter (s : Scanner) : Scanner × Option ScanErr :=
  if !s.connected then (s, some ScanErr.ErrNotConnected)
  else if s.scanning then (s, some ScanErr.ErrBusy)
  else ({ s with scanning := true }, none)

/-- The part of `ScanBatch` after the flag was set: `SetOptions`, and on its
error the reset of the flag. -/
def scanSetup (b : Backend) (s : Scanner) (opts : ScanOptions) : Scanner × Option ScanErr :=
  match SetOptions b s opts with
  | (s1, some e) => ({ s1 with scanning := false }, some e)
  | (s1, none) => (s1, none)

/-- Go `Scanner.ScanBatch`, up to its return: the error, or `none` when the page
channel is returned and the stream goroutine started. -/
def ScanBatch (b : Backend) (s : Scanner) (opts : ScanOptions) : Scanner × Option ScanErr :=
  match scanEnter s with
  | (s1, some e) => (s1, some e)
  | (s1, none) => scanSetup b s1 opts

/-- Go `isEndOfFeed`, on the message of the error. -/
def isEndOfFeed (msg : String) : Bool :=
  msg == "document feeder out of documents" || msg == "no more data available" ||
    msg == "end of file"

/-- The `jobs.Page` values the stream goroutine sends: the fields its two
literals set (all other fields are zero). -/
structure ScanPage where
  Number : Int
  Width : Int
  Height : Int
  Image : Option Image
  Err : Option String

/-- The loop of the stream goroutine. `done i` says whether `ctx.Done()` is
ready at the `i`-th iteration; `iter` counts iterations, `pageNum` is the page
counter, `calls` the backend calls so far. The result is the pages sent and
the calls afterwards, or `none` when the loop is still running after `fuel`
iterations. -/
def streamLoop (b : Backend) (done : Nat → Bool) :
    Nat → Nat → Int → List Call → Option (List ScanPage × List Call)
  | 0, _, _, _ => none
  | fuel + 1, iter, pageNum, calls =>
    if done iter then some ([], calls)
    else
      let calls1 := calls ++ [Call.ReadImage]
      match b.ReadImage calls with
      | .error e =>
        if isEndOfFeed e then some ([], calls1)
        else some ([{ Number := 0, Width := 0, Height := 0, Image := none, Err := some e }], calls1)
      | .ok img =>
        match streamLoop b done fuel (iter + 1) (pageNum + 1) calls1 with
        | none => none
        | some (pages, calls2) =>
          some ({ Number := pageNum + 1, Width := img.Dx, Height := img.Dy, Image := some img,
                  Err := none } :: pages, calls2)

/-- The deferred function of the stream goroutine: `s.scanning = false`. -/
def streamExit (s : Scanner) : Scanner := { s with scanning := false }

/-- A whole scan without interleaved calls: `ScanBatch`, then the stream
goroutine run to its end. The result is the error of `ScanBatch`, or the pages
the channel delivered before it was closed (`none` while the loop still runs
after `fuel` iterations). -/
def scanAll (b : Backend) (done : Nat → Bool) (fuel : Nat) (s : Scanner) (opts : ScanOptions) :
    Scanner × Except ScanErr (Option (List ScanPage)) :=
  match ScanBatch b s opts with
  | (s1, some e) => (s1, .error e)
  | (s1, none) =>
    match streamLoop b done fuel 0 0 s1.calls with
    | none => (s1, .ok none)
    | some (pages, calls) => (streamExit { s1 with calls := calls }, .ok (some pages))

/-- Go `Scanner.GetButtonState`. -/
def GetButtonState (b : Backend) (s : Scanner) (buttonName : String) :
    Scanner × Except ScanErr Bool :=
  if !s.connected then (s, .error ScanErr.ErrNotConnected)
  else
    let s1 := { s with calls := s.calls ++ [Call.GetOption buttonName] }
    match b.GetOption s.calls buttonName with
    | .error e => (s1, .error (ScanErr.backend e))
    | .ok (OptVal.bool v) => (s1, .ok v)
    | .ok _ => (s1, .ok false)

/-- The controller with its concurrent activities: the scanner, the number of
`ScanBatch` calls that have set the flag and not yet finished `SetOptions`, and
the number of stream goroutines in flight. -/
structure Ctl where
  sc : Scanner
  setups : Nat
  streams : Nat

/-- The atomic steps of the controller: each is one critical section, or one
goroutine reaching its end. -/
inductive CtlEvent where
  | open (deviceName : String)
  | close
  | setOptions (opts : ScanOptions)
  | getButton (name : String)
  | scanEnter
  | scanSetup (opts : ScanOptions)
  | streamRead
  | streamExit

/-- One step of the controller. `scanSetup` belongs to a `ScanBatch` call that
has entered; `streamRead` and `streamExit` belong to a stream in flight. -/
def Ctl.step (b : Backend) (c : Ctl) : CtlEvent → Ctl
  | .open deviceName => { c with sc := (Scanner.Open b c.sc deviceName).1 }
  | .close => { c with sc := Scanner.Close c.sc }
  | .setOptions opts => { c with sc := (SetOptions b c.sc opts).1 }
  | .getButton name => { c with sc := (GetButtonState b c.sc name).1 }
  | .scanEnter =>
    match scanEnter c.sc with
    | (_, some _) => c
    | (s1, none) => { c with sc := s1, setups := c.setups + 1 }
  | .scanSetup opts =>
    if c.setups = 0 then c
    else
      match scanSetup b c.sc opts with
      | (s1, some _) => { c with sc := s1, setups := c.setups - 1 }
      | (s1, none) => { sc := s1, setups := c.setups - 1, streams := c.streams + 1 }
  | .streamRead =>
    if c.streams = 0 then c
    else { c with sc := { c.sc with calls := c.sc.calls ++ [Call.ReadImage] } }
  | .streamExit =>
    if c.streams = 0 then c
    else { c with sc := streamExit c.sc, streams := c.streams - 1 }

/-- A sequence of steps of the controller. -/
def Ctl.run (b : Backend) (c : Ctl) (evs : List CtlEvent) : Ctl := evs.foldl (Ctl.step b) c

/-- The controller of a new scanner: nothing in flight. -/
def Ctl.init (deviceName : String) : Ctl := { sc := New deviceName, setups := 0, streams := 0 }

/-- The flag `scanning` is set exactly while one `ScanBatch` is past its checks
or one stream is in flight, and there is never more than one of them. -/
def Ctl.Exclusive (c : Ctl) : Prop :=
  c.setups + c.streams ≤ 1 ∧ (c.sc.scanning = true ↔ c.setups + c.streams = 1)

/-- A backend like the stub of the repository when its device is open, with a
pressed button: every option is accepted, `GetOption` answers `true`, and
`ReadImage` reports an empty feeder. -/
def pressedBackend : Backend :=
  { Open := fun _ _ => none
    SetOption := fun _ _ _ => none
    GetOption := fun _ _ => .ok (OptVal.bool true)
    ReadImage := fun _ => .error "document feeder out of documents" }

/-- Scan options like those of the built-in oversize profile. -/
def oversizeOptions : ScanOptions :=
  { Resolution := 200, Mode := "gray", Source := "adf_duplex", PageWidth := 210,
    PageHeight := 0, Brightness := 0, Contrast := 0 }

/-- A scanner opened on `test:0`, with a stream in flight. -/
def scanningCtl : Ctl :=
  Ctl.run pressedBackend (Ctl.init "")
    [CtlEvent.open "test:0", CtlEvent.scanEnter, CtlEvent.scanSetup oversizeOptions]

/-- The controller after the device was closed while the stream was in flight. -/
def closedWhileScanning : Ctl := Ctl.step pressedBackend scanningCtl CtlEvent.close

/-- The pages the stream sends for successive images when the page counter
stands at `pageNum`: numbered from `pageNum + 1` on, each with the size of its
image. -/
def numberedFrom (pageNum : Int) : List Image → List ScanPage
  | [] => []
  | img :: rest =>
    { Number := pageNum + 1, Width := img.Dx, Height := img.Dy, Image := some img, Err := none }
      :: numberedFrom (pageNum + 1) rest

/-- The page that carries a read error: `&jobs.Page{Err: err}`. -/
def errorPage (e : String) : ScanPage :=
  { Number := 0, Width := 0, Height := 0, Image := none, Err := some e }

/-- A backend that accepts every option and delivers the images of `imgs` one
after the other, then fails with `e`: the answer to `ReadImage` depends on the
number of reads made before. -/
def feederBackend (imgs : List Image) (e : String) : Backend :=
  { Open := fun _ _ => none
    SetOption := fun _ _ _ => none
    GetOption := fun _ _ => .ok OptVal.null
    ReadImage := fun calls =>
      match imgs.get? (calls.count Call.ReadImage) with
      | some img => .ok img
      | none => .error e }

/-- A scanner opened on `test:0`, idle. -/
def openScanner : Scanner := (Scanner.Open pressedBackend (New "") "test:0").1

/-! ## config/profiles.go -/

/-- Go `ProfileInfo`. -/
structure ProfileInfo where
  Name : String
  Description : String
  deriving DecidableEq

/-- Go `ProfileScanner`; the `float64` fields are rationals. -/
structure ProfileScanner where
  Resolution : Int
  Mode : String
  Source : String
  PageWidth : ℚ
  PageHeight : ℚ
  deriving DecidableEq

/-- Go `ProfileOCR`. -/
structure ProfileOCR where
  Enabled : Bool
  Language : String
  deriving DecidableEq

/-- Go `ProfileSplit`. -/
structure ProfileSplit where
  Enabled : Bool
  ThresholdMM : ℚ
  OverlapMM : ℚ
  deriving DecidableEq

/-- Go `ProfileProcessing`. -/
structure ProfileProcessing where
  OptimizeImages : Bool
  Deskew : Bool
  RemoveBlankPages : Bool
  BlankThreshold : ℚ
  OCR : ProfileOCR
  Split : ProfileSplit
  deriving DecidableEq

/-- Go `ProfileOutput`. -/
structure ProfileOutput where
  DefaultTarget : String
  deriving DecidableEq

set_option linter.dupNamespace false in
/-- Go `Profile`. -/
structure Profile where
  Profile : ProfileInfo
  Scanner : ProfileScanner
  Processing : ProfileProcessing
  Output : ProfileOutput
  deriving DecidableEq

/-- A `*Profile`: nil, or the profile pointed to. -/
abbrev ProfilePtr := Option Profile

/-- Go `ProfileStore`: the map `profiles`, `none` for a name that is not a key. -/
structure ProfileStore where
  profiles : String → Option ProfilePtr

/-- The zero value of `ProfileSplit`. -/
def noSplit : ProfileSplit := { Enabled := false, ThresholdMM := 0, OverlapMM := 0 }

/-- Go `defaultStandardProfile`. -/
def defaultStandardProfile : Profile :=
  { Profile := { Name := "Standard Dokument",
                 Description := "Farbscan 300 DPI, beidseitig, mit OCR" }
    Scanner := { Resolution := 300, Mode := "color", Source := "adf_duplex", PageWidth := 210,
                 PageHeight := 420 }
    Processing := { OptimizeImages := true, Deskew := true, RemoveBlankPages := true,
                    BlankThreshold := 99 / 100, OCR := { Enabled := true, Language := "deu" },
                    Split := noSplit }
    Output := { DefaultTarget := "paperless" } }

/-- Go `defaultOversizeProfile`. -/
def defaultOversizeProfile : Profile :=
  { Profile := { Name := "Überlänge",
                 Description := "Für Dokumente länger als A4 (Kontoauszüge, etc.)" }
    Scanner := { Resolution := 200, Mode := "gray", Source := "adf_duplex", PageWidth := 210,
                 PageHeight := 0 }
    Processing := { OptimizeImages := true, Deskew := true, RemoveBlankPages := false,
                    BlankThreshold := 0, OCR := { Enabled := true, Language := "deu" },
                    Split := noSplit }
    Output := { DefaultTarget := "paperless" } }

/-- Go `defaultPhotoProfile`. -/
def defaultPhotoProfile : Profile :=
  { Profile := { Name := "Foto", Description := "Hochauflösender Farbscan für Fotos" }
    Scanner := { Resolution := 600, Mode := "color", Source := "flatbed", PageWidth := 210,
                 PageHeight := 297 }
    Processing := { OptimizeImages := false, Deskew := false, RemoveBlankPages := false,
                    BlankThreshold := 0, OCR := { Enabled := false, Language := "" },
                    Split := noSplit }
    Output := { DefaultTarget := "filesystem" } }

/-- Go `NewProfileStore("")`: the store of the three built-in profiles (no
directory is read). -/
def NewProfileStore : ProfileStore :=
  { profiles := fun k =>
      if k = "photo" then some (some defaultPhotoProfile)
      else if k = "oversize" then some (some defaultOversizeProfile)
      else if k = "standard" then some (some defaultStandardProfile)
      else none }

/-- Go `ProfileStore.Get`. -/
def ProfileStore.Get (s : ProfileStore) (name : String) : ProfilePtr × Bool :=
  match s.profiles name with
  | some p => (p, true)
  | none => (none, false)

/-- Go `ProfileStore.Set`. -/
def ProfileStore.Set (s : ProfileStore) (name : String) (p : ProfilePtr) : ProfileStore :=
  { profiles := fun k => if k = name then some p else s.profiles k }

/-- The options `processJob` passes to `ScanBatch` for a profile. -/
def profileScanOptions (p : Profile) : ScanOptions :=
  { Resolution := p.Scanner.Resolution, Mode := p.Scanner.Mode, Source := p.Scanner.Source,
    PageWidth := p.Scanner.PageWidth, PageHeight := p.Scanner.PageHeight, Brightness := 0,
    Contrast := 0 }

/-! ## api/middleware.go -/

/-- Go `strings.HasPrefix`. -/
def HasPrefix (s pre : String) : Bool := pre.data.isPrefixOf s.data

/-- Go `strings.TrimPrefix`. -/
def TrimPrefix (s pre : String) : String :=
  if HasPrefix s pre then String.mk (s.data.drop pre.data.length) else s

/-- What `AuthMiddleware` reads of a request: the first value of the
`Authorization` header, of the `X-API-Key` header and of the `api_key` query
parameter, each `none` when the request carries none. -/
structure Request where
  authorization : Option String
  xApiKey : Option String
  apiKeyQuery : Option String
  deriving DecidableEq

/-- Go `Header.Get` and `Values.Get`: the first value, or the empty string when
there is none. -/
def firstValue (v : Option String) : String := v.getD ""

/-- What the middleware does with a request: it calls the next handler, or it
answers 401 itself. -/
inductive AuthResult where
  | next
  | unauthorized
  deriving DecidableEq, Repr

/-- The loop `for _, k := range validKeys { keySet[k] = true }` on the map so far. -/
def buildKeySet : List String → (String → Bool) → (String → Bool)
  | [], keySet => keySet
  | k :: rest, keySet => buildKeySet rest (fun x => if x = k then true else keySet x)

/-- Go `AuthMiddleware(validKeys)`, applied to a request. -/
def AuthMiddleware (validKeys : List String) (r : Request) : AuthResult :=
  let keySet := buildKeySet validKeys (fun _ => false)
  let auth := firstValue r.authorization
  if HasPrefix auth "Bearer " && keySet (TrimPrefix auth "Bearer ") then AuthResult.next
  else if keySet (firstValue r.xApiKey) then AuthResult.next
  else if keySet (firstValue r.apiKeyQuery) then AuthResult.next
  else AuthResult.unauthorized

/-- A request without `Authorization` header, `X-API-Key` header and `api_key`
query parameter. -/
def bareRequest : Request := { authorization := none, xApiKey := none, apiKeyQuery := none }

/-! ## jobs/queue.go -/

/-- A `*Job` as the queue sees it: its address and its `ID`. -/
structure QJob where
  addr : Nat
  ID : String
  deriving DecidableEq, Repr

/-- The fields of `Queue` touched by `Submit` and `Get`: the map `jobs` (`none`
for an id that is not a key), the content of the buffered channel `pending`
(capacity 100, oldest first), and the jobs for which a `forwardProgress`
goroutine was started. -/
structure Queue where
  jobs : String → Option QJob
  pending : List QJob
  forwarding : List QJob

/-- Go `NewQueue`. -/
def NewQueue : Queue := { jobs := fun _ => none, pending := [], forwarding := [] }

/-- Go `Queue.Submit`: the queue afterwards and the error returned (`none` for nil). -/
def Queue.Submit (q : Queue) (job : QJob) : Queue × Option String :=
  if (q.jobs job.ID).isSome then (q, some ("job " ++ job.ID ++ " already exists"))
  else
    let q1 : Queue := { q with jobs := fun k => if k = job.ID then some job else q.jobs k,
                               forwarding := q.forwarding ++ [job] }
    if q1.pending.length < 100 then ({ q1 with pending := q1.pending ++ [job] }, none)
    else (q1, some "job queue is full")

/-- Go `Queue.Get`. -/
def Queue.Get (q : Queue) (id : String) : Option QJob × Bool :=
  match q.jobs id with
  | some job => (some job, true)
  | none => (none, false)

/-- A 100×100 image whose pixels are all `color.White`, as in `TestIsBlankPage`. -/
def whiteSquare : Image :=
  { minX := 0, minY := 0, maxX := 100, maxY := 100, At := fun _ _ => white }

/-- A 3×7 grayscale image whose pixels are all `color.Gray{255}`. -/
def grayWhitePage : Image :=
  { minX := 0, minY := 0, maxX := 3, maxY := 7, At := fun _ _ => Color.gray 255 }

/-! ## jobs/job.go: the whole job, its progress channel, documents -/

/-- Go `DocumentMetadata`. `Title` is kept as the bytes of the Go string, because
`sanitizeFilename` reads it byte by byte. -/
structure DocumentMetadata where
  Title : List Nat
  Created : String
  Correspondent : Int
  DocumentType : Int
  Tags : List Int
  ArchiveSerialNumber : String
  deriving DecidableEq

/-- Go `OutputConfig`. -/
structure OutputConfig where
  Target : String
  Filename : String
  deriving DecidableEq

/-- Go `ProgressUpdate`; the field `Type` is written `Type_`. -/
structure ProgressUpdate where
  Type_ : String
  JobID : String
  Status : String
  Page : Int
  Progress : Int
  Message : String
  PreviewURL : String
  Error : String
  deriving DecidableEq

/-- A buffered channel of progress updates: its capacity and the updates it
holds, oldest first. -/
structure Chan where
  cap : Nat
  buf : List ProgressUpdate
  deriving DecidableEq

/-- Go `Job` with all its fields but the mutex: `core` holds the fields of the
status methods, the others follow the declaration. -/
structure JobRecord where
  core : Job
  ID : String
  Profile : String
  Progress : Int
  Output : OutputConfig
  Metadata : Option DocumentMetadata
  OcrEnabled : Option Bool
  CreatedAt : Int
  progress : Chan
  deriving DecidableEq

/-- Go `NewJob(profile, output, metadata, ocrEnabled)`, for the identifier `id`
that `uuid.New()` returns and the time `now`. -/
def NewJobRecord (id : String) (now : Int) (profile : String) (output : OutputConfig)
    (metadata : Option DocumentMetadata) (ocrEnabled : Option Bool) : JobRecord :=
  { core := { Status := StatusPending, Pages := [], Error := "", UpdatedAt := now,
              hasCancel := false, cancelCalls := 0 }
    ID := id, Profile := profile, Progress := 0, Output := output, Metadata := metadata,
    OcrEnabled := ocrEnabled, CreatedAt := now, progress := { cap := 100, buf := [] } }

/-- Go `Job.SendProgress`: the `select` sends when the buffer has room and takes
the `default` branch otherwise. -/
def SendProgress (j : JobRecord) (update : ProgressUpdate) : JobRecord :=
  let update := { update with JobID := j.ID }
  if j.progress.buf.length < j.progress.cap then
    { j with progress := { j.progress with buf := j.progress.buf ++ [update] } }
  else j

/-- Go `Document`; `Filename` and `Title` as bytes, `Reader` as the path of the
file the reader is open on. -/
structure Document where
  Filename : List Nat
  Title : List Nat
  Created : String
  Correspondent : Int
  DocumentType : Int
  Tags : List Int
  ArchiveSerial : String
  Reader : String
  Size : Int
  deriving DecidableEq

/-! ## processor/pipeline.go: Process and generateFilename -/

/-- The fields of `Pipeline` that `Process` reads itself; `pdfConfig` is only
handed on to `createPDF`. -/
structure Pipeline where
  tempDir : String
  ocrEnabled : Bool
  ocrLanguage : String
  ocrPath : String
  deriving DecidableEq

/-- A wall-clock reading, in the fields that the layout "20060102_150405" prints. -/
structure Time where
  Year : Nat
  Month : Nat
  Day : Nat
  Hour : Nat
  Minute : Nat
  Second : Nat
  deriving DecidableEq

/-- What `filepath.Join` returns for a clean directory path without a trailing
separator and a plain file name: the two joined by a separator. The examples
below use it on such arguments only; `Process` itself takes `filepath.Join`
from its environment and assumes nothing about it. -/
def cleanJoin (dir name : String) : String := dir ++ "/" ++ name

/-- The calls `Process` makes on the job, the file system and the external
tools, with the arguments it passes. -/
inductive PipelineCall where
  | MkdirAll (path : String)
  | SendProgress (update : ProgressUpdate)
  | saveImages (dir : String)
  | deskewImages (paths : List String)
  | removeBlankPages (paths : List String) (threshold : ℚ)
  | createPDF (imagePaths : List String) (pdfPath : String)
  | runOCR (inputPDF outputPDF language tesseractPath : String)
  | Open (path : String)
  | Stat (path : String)
  | RemoveAll (path : String)
  deriving DecidableEq

/-- What `Process` meets outside: the library function `filepath.Join`, left
uninterpreted; for each call on the file system or on an external tool, its
result (`none` for a nil error); and the clock. -/
structure ProcessEnv where
  Join : String → String → String
  MkdirAll : String → Option String
  saveImages : String → Except String (List String)
  loadImage : String → Option Image
  createPDF : List String → String → Option String
  runOCR : String → String → String → String → Option String
  Open : String → Option String
  Stat : String → Except String Int
  now : Time

/-- Go `deskewImages`: the paths unchanged and a nil error. -/
def deskewImages (paths : List String) : List String × Option String := (paths, none)

/-- The update `Process` passes to `SendProgress` at a stage. -/
def stageUpdate (progress : Int) (message : String) : ProgressUpdate :=
  { Type_ := "processing", JobID := "", Status := "", Page := 0, Progress := progress,
    Message := message, PreviewURL := "", Error := "" }

/-- Step 2 of `Process`: the calls made and `imagePaths` afterwards. The result
of `removeBlankPages` is assigned to `imagePaths` before its error is looked
at, and it is nil when the error is not. -/
def optimizeStage (env : ProcessEnv) (profile : Profile) (imagePaths : List String) :
    List PipelineCall × List String :=
  if profile.Processing.OptimizeImages then
    let c0 := [PipelineCall.SendProgress (stageUpdate 20 "Optimizing images...")]
    let r1 : List PipelineCall × List String :=
      if profile.Processing.Deskew then
        ([PipelineCall.deskewImages imagePaths], (deskewImages imagePaths).1)
      else ([], imagePaths)
    let r2 : List PipelineCall × List String :=
      if profile.Processing.RemoveBlankPages then
        ([PipelineCall.removeBlankPages r1.2 profile.Processing.BlankThreshold],
         match removeBlankPages env.loadImage r1.2 profile.Processing.BlankThreshold with
         | some result => result
         | none => [])
      else ([], r1.2)
    (c0 ++ r1.1 ++ r2.1, r2.2)
  else ([], imagePaths)

/-- Step 4 of `Process`: the calls made and `pdfPath` afterwards. -/
def ocrStage (p : Pipeline) (env : ProcessEnv) (profile : Profile) (jobDir pdfPath : String) :
    List PipelineCall × String :=
  let ocrEnabled := if profile.Processing.OCR.Enabled then true else p.ocrEnabled
  if ocrEnabled then
    let lang := if profile.Processing.OCR.Language ≠ "" then profile.Processing.OCR.Language
                else p.ocrLanguage
    let ocrPDFPath := env.Join jobDir "output_ocr.pdf"
    ([PipelineCall.SendProgress (stageUpdate 70 "Running OCR..."),
      PipelineCall.runOCR pdfPath ocrPDFPath lang p.ocrPath],
     match env.runOCR pdfPath ocrPDFPath lang p.ocrPath with
     | some _ => pdfPath
     | none => ocrPDFPath)
  else ([], pdfPath)

/-- Go `time.Time.Format` for one numeric field (`appendInt` of package `time`,
for `x ≥ 0`): the decimal digits of `x`, a single `0` for zero, padded on the
left with zeros to `width`. -/
def appendInt (x width : Nat) : List Nat :=
  let digits := if x = 0 then ['0'.toNat]
                else (Nat.digits 10 x).reverse.map (fun d => d + '0'.toNat)
  List.replicate (width - digits.length) '0'.toNat ++ digits

/-- Go `t.Format("20060102_150405")`, as bytes. -/
def formatTimestamp (t : Time) : List Nat :=
  appendInt t.Year 4 ++ appendInt t.Month 2 ++ appendInt t.Day 2 ++ ['_'.toNat] ++
  appendInt t.Hour 2 ++ appendInt t.Minute 2 ++ appendInt t.Second 2

/-- Two decimal digits, as the specification writes `MM`, `DD`, `HH`, `MM`, `SS`:
the tens and the units. -/
def twoDigits (n : Nat) : List Nat := ['0'.toNat + n / 10, '0'.toNat + n % 10]

/-- Four decimal digits, as the specification writes `YYYY`. -/
def fourDigits (n : Nat) : List Nat :=
  ['0'.toNat + n / 1000, '0'.toNat + n / 100 % 10, '0'.toNat + n / 10 % 10,
   '0'.toNat + n % 10]

/-- The timestamp in the words of the specification, `YYYYMMDD_HHMMSS`: fifteen
characters, the digits of the date, an underscore, the digits of the time. -/
def timestampSpec (t : Time) : List Nat :=
  fourDigits t.Year ++ twoDigits t.Month ++ twoDigits t.Day ++ ['_'.toNat] ++
  twoDigits t.Hour ++ twoDigits t.Minute ++ twoDigits t.Second

/-- The bytes of the Go string literal "scan". -/
def scan : List Nat := ['s', 'c', 'a', 'n'].map Char.toNat

/-- Go `generateFilename`, for the reading `now` of the clock. -/
def generateFilename (job : JobRecord) (now : Time) : List Nat :=
  let timestamp := formatTimestamp now
  let title :=
    match job.Metadata with
    | some m => if m.Title ≠ [] then sanitizeFilename m.Title else scan
    | none => scan
  title ++ ['_'.toNat] ++ timestamp ++ ['.', 'p', 'd', 'f'].map Char.toNat

/-- Step 5 of `Process`: the calls made, and the document or the error. -/
def documentStage (env : ProcessEnv) (job : JobRecord) (pdfPath : String) :
    List PipelineCall × Except String Document :=
  let c0 := [PipelineCall.SendProgress (stageUpdate 90 "Finalizing document..."),
             PipelineCall.Open pdfPath]
  match env.Open pdfPath with
  | some e => (c0, .error ("open PDF: " ++ e))
  | none =>
    match env.Stat pdfPath with
    | .error e => (c0 ++ [PipelineCall.Stat pdfPath], .error ("stat PDF: " ++ e))
    | .ok size =>
      let doc : Document :=
        { Filename := generateFilename job env.now, Title := [], Created := "",
          Correspondent := 0, DocumentType := 0, Tags := [], ArchiveSerial := "",
          Reader := pdfPath, Size := size }
      let doc : Document :=
        match job.Metadata with
        | some m => { doc with Title := m.Title, Created := m.Created,
                               Correspondent := m.Correspondent,
                               DocumentType := m.DocumentType, Tags := m.Tags,
                               ArchiveSerial := m.ArchiveSerialNumber }
        | none => doc
      (c0 ++ [PipelineCall.Stat pdfPath,
              PipelineCall.SendProgress (stageUpdate 100 "Document ready")], .ok doc)

/-- Go `Pipeline.Process`: the calls it makes, in order, and what it returns. The
deferred `os.RemoveAll(jobDir)` is the last call once the directory exists. -/
def Process (p : Pipeline) (env : ProcessEnv) (job : JobRecord) (profile : Profile) :
    List PipelineCall × Except String Document :=
  let jobDir := env.Join p.tempDir job.ID
  match env.MkdirAll jobDir with
  | some e => ([PipelineCall.MkdirAll jobDir], .error ("create temp dir: " ++ e))
  | none =>
    let c1 := [PipelineCall.MkdirAll jobDir,
               PipelineCall.SendProgress (stageUpdate 10 "Saving scanned images..."),
               PipelineCall.saveImages jobDir]
    match env.saveImages jobDir with
    | .error e => (c1 ++ [PipelineCall.RemoveAll jobDir], .error ("save images: " ++ e))
    | .ok imagePaths =>
      let opt := optimizeStage env profile imagePaths
      if opt.2.length = 0 then
        (c1 ++ opt.1 ++ [PipelineCall.RemoveAll jobDir],
         .error "no pages remaining after processing")
      else
        let pdfPath := env.Join jobDir "output.pdf"
        let c3 := [PipelineCall.SendProgress (stageUpdate 50 "Creating PDF..."),
                   PipelineCall.createPDF opt.2 pdfPath]
        match env.createPDF opt.2 pdfPath with
        | some e => (c1 ++ opt.1 ++ c3 ++ [PipelineCall.RemoveAll jobDir],
                     .error ("create PDF: " ++ e))
        | none =>
          let ocr := ocrStage p env profile jobDir pdfPath
          let fin := documentStage env job ocr.2
          (c1 ++ opt.1 ++ c3 ++ ocr.1 ++ fin.1 ++ [PipelineCall.RemoveAll jobDir], fin.2)

/-- Steps 1 to 3 of `Process` all succeed, so that it arrives at step 4: the
directory is made, the images are saved, at least one image is left after step
2, and the PDF is created. -/
def reachesOCR (p : Pipeline) (env : ProcessEnv) (job : JobRecord) (profile : Profile) : Bool :=
  match env.MkdirAll (env.Join p.tempDir job.ID) with
  | some _ => false
  | none =>
    match env.saveImages (env.Join p.tempDir job.ID) with
    | .error _ => false
    | .ok imagePaths =>
      if (optimizeStage env profile imagePaths).2.length = 0 then false
      else
        match env.createPDF (optimizeStage env profile imagePaths).2
            (env.Join (env.Join p.tempDir job.ID) "output.pdf") with
        | some _ => false
        | none => true

/-- The pipeline of the default configuration. -/
def defaultPipeline : Pipeline :=
  { tempDir := "/tmp/scanflow", ocrEnabled := true, ocrLanguage := "deu+eng",
    ocrPath := "/usr/bin/tesseract" }

/-- A file system and tools on which every call succeeds: one page is saved,
and it loads as the black 1×1 image. -/
def okEnv : ProcessEnv :=
  { Join := cleanJoin
    MkdirAll := fun _ => none
    saveImages := fun dir => .ok [cleanJoin dir "page_0001.png"]
    loadImage := fun _ => some blackDot
    createPDF := fun _ _ => none
    runOCR := fun _ _ _ _ => none
    Open := fun _ => none
    Stat := fun _ => .ok 1024
    now := { Year := 2024, Month := 3, Day := 9, Hour := 14, Minute := 5, Second := 7 } }

/-- The same, but `createPDF` fails. -/
def pdfFailEnv : ProcessEnv := { okEnv with createPDF := fun _ _ => some "exit status 1" }

/-- The same, but the saved page cannot be loaded again. -/
def unreadableEnv : ProcessEnv := { okEnv with loadImage := fun _ => none }

/-- A new job for the profile "standard", without metadata. -/
def plainJob : JobRecord :=
  NewJobRecord "job-1" 0 "standard" { Target := "", Filename := "" } none none

/-- A pipeline configured with OCR off. -/
def quietPipeline : Pipeline := { defaultPipeline with ocrEnabled := false }

/-! ## output/paperless.go -/

/-- The fields of `http.Response` that `Send` reads. -/
structure Response where
  StatusCode : Int
  Body : String
  deriving DecidableEq

/-- What `PaperlessHandler.Send` meets outside: the error of `CreateFormFile`, of
`io.Copy` and of `NewRequestWithContext` (`none` for nil), and the result of
`client.Do` for the URL and the `Authorization` header. -/
structure UploadEnv where
  CreateFormFile : Option String
  Copy : Option String
  NewRequest : Option String
  Do : String → String → Except String Response

/-- Go `PaperlessHandler`. -/
structure PaperlessHandler where
  baseURL : String
  token : String
  deriving DecidableEq

/-- Go `PaperlessHandler.Send`: the error returned, `none` for nil. -/
def PaperlessHandler.Send (h : PaperlessHandler) (env : UploadEnv) : Option String :=
  match env.CreateFormFile with
  | some e => some ("create form file: " ++ e)
  | none =>
    match env.Copy with
    | some e => some ("copy document data: " ++ e)
    | none =>
      match env.NewRequest with
      | some e => some ("create request: " ++ e)
      | none =>
        match env.Do (h.baseURL ++ "/api/documents/post_document/") ("Token " ++ h.token) with
        | .error e => some ("paperless upload: " ++ e)
        | .ok resp =>
          if resp.StatusCode ≠ 200 then
            some ("paperless error " ++ toString resp.StatusCode ++ ": " ++ resp.Body)
          else none

/-- A server that answers every upload with the status `code` and an empty body. -/
def answering (code : Int) : UploadEnv :=
  { CreateFormFile := none, Copy := none, NewRequest := none,
    Do := fun _ _ => .ok { StatusCode := code, Body := "" } }

/-- A handler configured for a local server. -/
def localPaperless : PaperlessHandler := { baseURL := "http://localhost:8000", token := "secret" }

/-- A run of the worker in which two pages are scanned and `Process` fails. -/
def envProcessFails : WorkerEnv := { envOk with processErr := some "create PDF: exit status 1" }

/-! ## output/email.go -/

/-- Go `encodeStd`, the alphabet of `base64.StdEncoding`, as bytes. -/
def encodeStd : List Nat :=
  "ABCDEFGHIJKLMNOPQRSTUVWXYZabcdefghijklmnopqrstuvwxyz0123456789+/".toList.map Char.toNat

/-- The table lookup `enc.encode[v]`. -/
def encode (v : Nat) : Nat := encodeStd.getD v 0

/-- Go `base64.StdEncoding.EncodeToString`, on bytes: three bytes give four
characters, and a last block of one or two bytes is padded with `=`. -/
def EncodeToString : List Nat → List Nat
  | [] => []
  | [b0] =>
    let val := b0 * 65536
    [encode (val / 262144 % 64), encode (val / 4096 % 64), '='.toNat, '='.toNat]
  | [b0, b1] =>
    let val := b0 * 65536 + b1 * 256
    [encode (val / 262144 % 64), encode (val / 4096 % 64), encode (val / 64 % 64), '='.toNat]
  | b0 :: b1 :: b2 :: rest =>
    let val := b0 * 65536 + b1 * 256 + b2
    encode (val / 262144 % 64) :: encode (val / 4096 % 64) :: encode (val / 64 % 64) ::
      encode (val % 64) :: EncodeToString rest

/-- The value of a character of the alphabet, `none` for any other byte. -/
def decodeChar (c : Nat) : Option Nat :=
  let i := encodeStd.indexOf c
  if i < 64 then some i else none

/-- Go `base64.StdEncoding.DecodeString` on input without line breaks: four
characters give three bytes, and the last four may end in one or two `=`. -/
def DecodeString : List Nat → Option (List Nat)
  | [] => some []
  | c0 :: c1 :: c2 :: c3 :: rest =>
    if rest = [] ∧ c3 = '='.toNat then
      if c2 = '='.toNat then
        match decodeChar c0, decodeChar c1 with
        | some v0, some v1 => some [(v0 * 4 + v1 / 16) % 256]
        | _, _ => none
      else
        match decodeChar c0, decodeChar c1, decodeChar c2 with
        | some v0, some v1, some v2 =>
          some [(v0 * 4 + v1 / 16) % 256, (v1 * 16 + v2 / 4) % 256]
        | _, _, _ => none
    else
      match decodeChar c0, decodeChar c1, decodeChar c2, decodeChar c3, DecodeString rest with
      | some v0, some v1, some v2, some v3, some tail =>
        some ((v0 * 4 + v1 / 16) % 256 :: (v1 * 16 + v2 / 4) % 256 :: (v2 * 64 + v3) % 256 :: tail)
      | _, _, _, _, _ => none
  | _ => none

/-- The loop `for i := 0; i < len(encoded); i += 76` of `EmailHandler.Send`, from
the index `i`; `msg` is what was written so far. -/
def wrapLoop (encoded : List Nat) (i : Nat) (msg : List Nat) : List Nat :=
  if i < encoded.length then
    let stop := if i + 76 > encoded.length then encoded.length else i + 76
    wrapLoop encoded (i + 76) (msg ++ (encoded.take stop).drop i ++ ['\r'.toNat, '\n'.toNat])
  else msg
termination_by encoded.length - i

/-- The attachment part that `EmailHandler.Send` writes for the document bytes:
the wrapped encoding, between the part headers and the closing boundary. -/
def attachmentBody (data : List Nat) : List Nat := wrapLoop (EncodeToString data) 0 []

/-- The lines in the words of the specification: the text cut after every 76th
character. -/
def lines76 (encoded : List Nat) : List (List Nat) :=
  if encoded = [] then [] else encoded.take 76 :: lines76 (encoded.drop 76)
termination_by encoded.length
decreasing_by
  rename_i h
  have : 0 < encoded.length := List.length_pos.mpr h
  simp only [List.length_drop]
  omega

/-! ## jobs/queue.go: a full queue -/

/-- One hundred jobs with distinct identifiers. -/
def fullJobs : List QJob :=
  (List.range 100).map (fun i => { addr := i, ID := String.mk (List.replicate (i + 1) 'j') })

/-- The queue after those jobs were submitted and before the worker took any. -/
def fullQueue : Queue :=
  { jobs := fun k => fullJobs.find? (fun j => j.ID = k), pending := fullJobs,
    forwarding := fullJobs }

/-- A job submitted to the full queue. -/
def lateJob : QJob := { addr := 100, ID := "late" }

/-! ## Theorems: job model -/

theorem findPage_none (heap : Heap) (n : Int) (l : List Ptr) (i : Nat) :
    findPage heap n l i = none ↔ ∀ p ∈ l, (heap p).Number ≠ n := by
  induction l generalizing i with
  | nil => simp [findPage]
  | cons p rest ih =>
    by_cases h : (heap p).Number = n
    · simp [findPage, h]
    · simp [findPage, h, ih]

theorem findPage_some (heap : Heap) (n : Int) (l : List Ptr) (i j : Nat)
    (h : findPage heap n l i = some j) :
    ∃ A x B, l = A ++ x :: B ∧ j = i + A.length ∧ (heap x).Number = n := by
  induction l generalizing i with
  | nil => simp [findPage] at h
  | cons p rest ih =>
    by_cases hp : (heap p).Number = n
    · simp [findPage, hp] at h
      exact ⟨[], p, rest, by simp, by simp [h], hp⟩
    · simp [findPage, hp] at h
      obtain ⟨A, x, B, hl, hj, hx⟩ := ih (i + 1) h
      exact ⟨p :: A, x, B, by simp [hl], by simp [hj]; omega, hx⟩

theorem renumber_not_mem (heap : Heap) (k : Nat) (l : List Ptr) (p : Ptr) (hp : p ∉ l) :
    renumber heap k l p = heap p := by
  induction l generalizing heap k with
  | nil => rfl
  | cons q rest ih =>
    simp only [List.mem_cons, not_or] at hp
    rw [renumber, ih _ _ hp.2]
    simp [Heap.setNumber, hp.1]

theorem renumber_fields (heap : Heap) (k : Nat) (l : List Ptr) (p : Ptr) :
    ∃ v, renumber heap k l p = { heap p with Number := v } := by
  induction l generalizing heap k with
  | nil => exact ⟨(heap p).Number, rfl⟩
  | cons q rest ih =>
    obtain ⟨v, hv⟩ := ih (heap.setNumber q ((k : Int) + 1)) (k + 1)
    rw [renumber, hv]
    by_cases hq : p = q
    · exact ⟨v, by simp [Heap.setNumber, hq]⟩
    · exact ⟨v, by simp [Heap.setNumber, hq]⟩

theorem renumber_numbers (heap : Heap) (k : Nat) (l : List Ptr) (hn : l.Nodup) :
    l.map (fun p => (renumber heap k l p).Number)
      = (List.range l.length).map (fun m => ((k + m : Nat) : Int) + 1) := by
  induction l generalizing heap k with
  | nil => rfl
  | cons q rest ih =>
    have hq : q ∉ rest := (List.nodup_cons.mp hn).1
    have hr : rest.Nodup := (List.nodup_cons.mp hn).2
    simp only [List.map_cons, List.length_cons, List.range_succ_eq_map, renumber,
      List.map_map]
    rw [renumber_not_mem _ _ _ _ hq, ih _ (k + 1) hr]
    refine congrArg₂ _ (by simp [Heap.setNumber]) ?_
    apply List.map_congr_left
    intro m _
    simp only [Function.comp, Nat.succ_eq_add_one]
    push_cast
    ring

theorem oneTo_nodup (n : Nat) : (oneTo n).Nodup := by
  unfold oneTo
  refine (List.nodup_range n).map ?_
  intro a b h
  simpa using h

theorem oneTo_length (n : Nat) : (oneTo n).length = n := by simp [oneTo]

theorem oneTo_add (a b : Nat) :
    oneTo (a + b) = oneTo a ++ (List.range b).map (fun m => ((a + m : Nat) : Int) + 1) := by
  unfold oneTo
  rw [List.range_add, List.map_append, List.map_map]
  rfl

/-- Erasing the page at position `|A|` of a contiguously numbered list and
renumbering what follows leaves a contiguously numbered list. -/
theorem erase_renumber (heap : Heap) (A B : List Ptr) (x : Ptr)
    (hc : (A ++ x :: B).map (fun p => (heap p).Number) = oneTo (A ++ x :: B).length) :
    (A ++ B).map (fun p => (renumber heap A.length B p).Number) = oneTo (A ++ B).length := by
  have hnd : (A ++ x :: B).Nodup := by
    have := oneTo_nodup (A ++ x :: B).length
    rw [← hc] at this
    exact List.Nodup.of_map _ this
  have hB : B.Nodup := (List.nodup_cons.mp (List.nodup_append.mp hnd).2.1).2
  have hdis : ∀ p ∈ A, p ∉ B := by
    intro p hpA hpB
    exact (List.nodup_append.mp hnd).2.2 hpA (List.mem_cons_of_mem _ hpB)
  have hA : A.map (fun p => (heap p).Number) = oneTo A.length := by
    have h1 : (A ++ x :: B).length = A.length + (B.length + 1) := by simp
    rw [h1, oneTo_add, List.map_append] at hc
    exact (List.append_inj hc (by simp [oneTo_length])).1
  rw [List.length_append, oneTo_add, List.map_append, renumber_numbers _ _ _ hB, ← hA]
  congr 1
  apply List.map_congr_left
  intro p hp
  rw [renumber_not_mem _ _ _ _ (hdis p hp)]

theorem contiguous_at (heap : Heap) (A B : List Ptr) (x : Ptr)
    (hc : (A ++ x :: B).map (fun p => (heap p).Number) = oneTo (A ++ x :: B).length) :
    (heap x).Number = (A.length : Int) + 1 := by
  have h1 : (A ++ x :: B).length = A.length + (B.length + 1) := by simp
  rw [h1, oneTo_add, List.map_append] at hc
  have h2 := (List.append_inj hc (by simp [oneTo_length])).2
  rw [List.range_succ_eq_map] at h2
  simp only [List.map_cons] at h2
  have h3 := (List.cons.inj h2).1
  simpa using h3

theorem call_statuses (clock : Nat → Int) (r : Run) (f : JobState → Int → JobState) :
    (Run.call clock r f).statuses
      = r.statuses ++ [(f r.cur (clock r.ticks)).job.Status] := by
  simp [Run.call, Run.statuses]

theorem live_call (clock : Nat → Int) (r : Run) (f : JobState → Int → JobState)
    (hr : r.Live) (hf : (f r.cur (clock r.ticks)).job.Status.isTerminal = false) :
    (Run.call clock r f).Live := by
  refine ⟨hf, ?_⟩
  intro st hst
  rw [call_statuses] at hst
  rcases List.mem_append.mp hst with h | h
  · exact hr.2 st h
  · rw [List.mem_singleton.mp h]; exact hf

theorem sticky_call (clock : Nat → Int) (r : Run) (f : JobState → Int → JobState)
    (hr : r.Live) : TerminalSticky (Run.call clock r f).statuses := by
  unfold TerminalSticky
  rw [call_statuses, List.pairwise_append]
  refine ⟨?_, List.pairwise_singleton _ _, ?_⟩
  · refine List.Pairwise.imp_of_mem ?_ (List.pairwise_of_forall (fun _ _ => trivial))
    · intro a b ha _ _ hterm
      rw [hr.2 a ha] at hterm
      exact absurd hterm (by decide)
  · intro a ha b _ hterm
    rw [hr.2 a ha] at hterm
    exact absurd hterm (by decide)

theorem live_addScanned (clock : Nat → Int) (pages : List Ptr) (r : Run) (hr : r.Live) :
    (addScanned clock r pages).Live := by
  induction pages generalizing r with
  | nil => exact hr
  | cons p rest ih =>
    unfold addScanned
    rw [List.foldl_cons]
    apply ih
    by_cases hp : (r.cur.heap p).hasErr = true
    · simpa [hp] using hr
    · simp only [hp]
      exact live_call clock r (fun s now => AddPage s p now) hr hr.1

/-- C1 (as amended): in the calls that `processJob` itself makes on a job that is
not in a terminal state when the worker takes it, a status that is Completed,
Failed or Cancelled is never followed by a different status. -/
theorem processJob_terminal_sticky (env : WorkerEnv) (clock : Nat → Int) (s : JobState)
    (h0 : s.job.Status.isTerminal = false) :
    TerminalSticky (processJob env clock s).statuses := by
  have l0 : (Run.call clock (Run.start s) (fun s _ => SetCancel s)).Live :=
    live_call clock _ _ ⟨h0, by simp [Run.start, Run.statuses]⟩ h0
  unfold processJob
  simp only []
  split
  · exact sticky_call clock _ _ l0
  · have l1 := live_call clock _ (fun s now => SetStatus s StatusScanning now) l0 rfl
    split
    · exact sticky_call clock _ _ l1
    · have l2 := live_addScanned clock env.scanned _ l1
      split
      · exact sticky_call clock _ _ l2
      · have l3 := live_call clock _ (fun s now => SetStatus s StatusProcessing now) l2 rfl
        split
        · exact sticky_call clock _ _ l3
        · split
          · exact sticky_call clock _ _ l3
          · exact sticky_call clock _ _ l3

/-- Witness of `processJob_terminal_sticky`: a fresh job on which the whole
run succeeds. -/
theorem processJob_terminal_sticky_witness :
    (NewJob heapSeq 0).job.Status.isTerminal = false ∧
    TerminalSticky (processJob envOk (fun k => (k : Int)) (NewJob heapSeq 0)).statuses :=
  ⟨rfl, processJob_terminal_sticky envOk (fun k => (k : Int)) (NewJob heapSeq 0) rfl⟩

/-- C1 (counterexample): the worker completes a job, then the cancel handler
runs on it: the status goes from Completed to Cancelled; and the finish handler
takes a cancelled job back to Processing. -/
theorem terminal_state_left :
    (processJob envOk (fun k => (k : Int)) (NewJob heapSeq 0)).cur.job.Status
      = StatusCompleted ∧
    (handleCancelJob (processJob envOk (fun k => (k : Int)) (NewJob heapSeq 0)).cur 9).job.Status
      = StatusCancelled ∧
    (handleFinishScan (handleCancelJob
      (processJob envOk (fun k => (k : Int)) (NewJob heapSeq 0)).cur 9) 10).job.Status
      = StatusProcessing ∧
    ¬ TerminalSticky ((processJob envOk (fun k => (k : Int)) (NewJob heapSeq 0)).statuses ++
      [(handleCancelJob
        (processJob envOk (fun k => (k : Int)) (NewJob heapSeq 0)).cur 9).job.Status]) := by
  refine ⟨by decide, by decide, by decide, ?_⟩
  unfold TerminalSticky
  decide

theorem DeletePage_found (s : JobState) (n now : Int) (A B : List Ptr) (x : Ptr)
    (hl : s.job.Pages = A ++ x :: B)
    (hf : findPage s.heap n s.job.Pages 0 = some A.length) :
    DeletePage s n now =
      (true, { job := { s.job with Pages := A ++ B, UpdatedAt := now },
               heap := renumber s.heap A.length B }) := by
  unfold DeletePage
  rw [hf]
  simp [hl]

/-- C2 (counterexample): two pages numbered 3 and 4 are appended; after
`DeletePage(4)` one page is stored and its number is 3, not 1. -/
theorem delete_not_contiguous :
    (DeletePage jobOff 4 9).1 = true ∧
    PageCount (DeletePage jobOff 4 9).2 = 1 ∧
    pageNumbers (DeletePage jobOff 4 9).2 = [3] ∧
    pageNumbers (DeletePage jobOff 4 9).2 ≠ oneTo (PageCount (DeletePage jobOff 4 9).2) := by
  decide

/-- C2 (as amended): if the stored page numbers are 1..PageCount() in order, then
after `DeletePage(n)`, for every `n`, they are again 1..PageCount() in order. -/
theorem DeletePage_contiguous (s : JobState) (n now : Int)
    (hc : pageNumbers s = oneTo (PageCount s)) :
    pageNumbers (DeletePage s n now).2 = oneTo (PageCount (DeletePage s n now).2) := by
  cases hf : findPage s.heap n s.job.Pages 0 with
  | none => simpa [DeletePage, hf] using hc
  | some i =>
    obtain ⟨A, x, B, hl, hi, _⟩ := findPage_some _ _ _ _ _ hf
    have hi2 : i = A.length := by omega
    subst hi2
    rw [DeletePage_found s n now A B x hl hf]
    unfold pageNumbers PageCount at *
    rw [hl] at hc
    exact erase_renumber s.heap A B x hc

/-- Witness of `DeletePage_contiguous`: the job of the repository test, pages
1, 2, 3, and the deletion of page 2. -/
theorem DeletePage_contiguous_witness :
    pageNumbers jobThree = oneTo (PageCount jobThree) ∧
    pageNumbers (DeletePage jobThree 2 9).2 = oneTo (PageCount (DeletePage jobThree 2 9).2) :=
  ⟨by decide, DeletePage_contiguous jobThree 2 9 (by decide)⟩

/-- C3: on a job whose pages are numbered 1..N in order, `DeletePage(n)` with
1 ≤ n ≤ N returns true; the stored pages are the original ones without the n-th,
in their order; there are N-1 of them, numbered 1..N-1; every page object keeps
all its fields except possibly `Number`, and only objects of pages stored after
position n are written at all. -/
theorem DeletePage_in_range (s : JobState) (n : Nat) (now : Int)
    (hc : pageNumbers s = oneTo (PageCount s)) (h1 : 1 ≤ n) (h2 : n ≤ PageCount s) :
    (DeletePage s (n : Int) now).1 = true ∧
    (DeletePage s (n : Int) now).2.job.Pages
      = s.job.Pages.take (n - 1) ++ s.job.Pages.drop n ∧
    PageCount (DeletePage s (n : Int) now).2 = PageCount s - 1 ∧
    pageNumbers (DeletePage s (n : Int) now).2 = oneTo (PageCount s - 1) ∧
    (∀ p, ∃ v, (DeletePage s (n : Int) now).2.heap p = { s.heap p with Number := v }) ∧
    (∀ p, p ∉ s.job.Pages.drop n → (DeletePage s (n : Int) now).2.heap p = s.heap p) := by
  have hmem : ∃ p ∈ s.job.Pages, (s.heap p).Number = (n : Int) := by
    have : (n : Int) ∈ pageNumbers s := by
      rw [hc]
      unfold oneTo
      refine List.mem_map.mpr ⟨n - 1, List.mem_range.mpr (by omega), ?_⟩
      omega
    obtain ⟨p, hp, hpn⟩ := List.mem_map.mp this
    exact ⟨p, hp, hpn⟩
  cases hf : findPage s.heap n s.job.Pages 0 with
  | none =>
    obtain ⟨p, hp, hpn⟩ := hmem
    exact absurd hpn ((findPage_none _ _ _ _).mp hf p hp)
  | some i =>
    obtain ⟨A, x, B, hl, hi, hx⟩ := findPage_some _ _ _ _ _ hf
    have hi2 : i = A.length := by omega
    subst hi2
    have hc2 : (A ++ x :: B).map (fun p => (s.heap p).Number)
        = oneTo (A ++ x :: B).length := by
      have := hc
      unfold pageNumbers PageCount at this
      rwa [hl] at this
    have hn : n = A.length + 1 := by
      have := contiguous_at s.heap A B x hc2
      omega
    have hlen : PageCount s - 1 = (A ++ B).length := by
      unfold PageCount
      rw [hl]
      simp
    rw [DeletePage_found s n now A B x hl hf]
    refine ⟨rfl, ?_, ?_, ?_, ?_, ?_⟩
    · simp [hl, hn]
    · rw [hlen]; rfl
    · rw [hlen]
      exact erase_renumber s.heap A B x hc2
    · intro p
      exact renumber_fields s.heap A.length B p
    · intro p hp
      have : p ∉ B := by simpa [hl, hn] using hp
      exact renumber_not_mem s.heap A.length B p this

/-- Witness of `DeletePage_in_range`: pages 1, 2, 3 and n = 2, as in
`TestJobAddDeletePage`. -/
theorem DeletePage_in_range_witness :
    pageNumbers jobThree = oneTo (PageCount jobThree) ∧ 1 ≤ 2 ∧ 2 ≤ PageCount jobThree ∧
    (DeletePage jobThree ((2 : Nat) : Int) 9).1 = true ∧
    pageNumbers (DeletePage jobThree ((2 : Nat) : Int) 9).2 = oneTo (PageCount jobThree - 1) :=
  have h := DeletePage_in_range jobThree 2 9 (by decide) (by decide) (by decide)
  ⟨by decide, by decide, by decide, h.1, h.2.2.2.1⟩

/-- C4: `DeletePage(n)` returns false exactly when no stored page has number `n`,
and exactly then it returns the job unchanged (pages, their order, their
numbers and every other field). -/
theorem DeletePage_false_iff (s : JobState) (n now : Int) :
    ((DeletePage s n now).1 = false ↔ ∀ p ∈ s.job.Pages, (s.heap p).Number ≠ n) ∧
    ((DeletePage s n now).1 = false ↔ DeletePage s n now = (false, s)) := by
  cases hf : findPage s.heap n s.job.Pages 0 with
  | none =>
    have hall := (findPage_none _ _ _ _).mp hf
    have hd : DeletePage s n now = (false, s) := by simp only [DeletePage, hf]
    rw [hd]
    exact ⟨⟨fun _ => hall, fun _ => rfl⟩, ⟨fun _ => rfl, fun _ => rfl⟩⟩
  | some i =>
    obtain ⟨A, x, B, hl, _, hx⟩ := findPage_some _ _ _ _ _ hf
    have hd : (DeletePage s n now).1 = true := by simp only [DeletePage, hf]
    refine ⟨⟨fun h => ?_, fun h => ?_⟩, ⟨fun h => ?_, fun h => ?_⟩⟩
    · rw [hd] at h; exact absurd h (by decide)
    · exact absurd hx (h x (by simp [hl]))
    · rw [hd] at h; exact absurd h (by decide)
    · rw [h] at hd; exact absurd hd (by simp)

/-! ## Theorems: filename sanitizer -/

theorem isSafeByte_eq_inAllowedSet (c : Nat) : isSafeByte c = inAllowedSet c := by
  by_cases h : c < 128
  · interval_cases c <;> rfl
  · have h1 : isSafeByte c = false := by
      simp only [isSafeByte, Bool.or_eq_false_iff, Bool.and_eq_false_iff, decide_eq_false_iff_not,
        beq_eq_false_iff_ne]
      have e1 : 'a'.toNat = 97 := rfl
      have e2 : 'z'.toNat = 122 := rfl
      have e3 : 'A'.toNat = 65 := rfl
      have e4 : 'Z'.toNat = 90 := rfl
      have e5 : '0'.toNat = 48 := rfl
      have e6 : '9'.toNat = 57 := rfl
      have e7 : '-'.toNat = 45 := rfl
      have e8 : '_'.toNat = 95 := rfl
      have e9 : '.'.toNat = 46 := rfl
      rw [e1, e2, e3, e4, e5, e6, e7, e8, e9]
      omega
    have h2 : inAllowedSet c = false := by
      unfold inAllowedSet
      rw [List.any_eq_false]
      intro a ha
      have hlt : a.toNat < 128 := by
        revert a
        decide
      simp only [beq_iff_eq]
      omega
    rw [h1, h2]

theorem sanitizeLoop_append (result name : List Nat) :
    sanitizeLoop result name = result ++ sanitizeLoop [] name := by
  induction name generalizing result with
  | nil => simp [sanitizeLoop]
  | cons c rest ih =>
    unfold sanitizeLoop
    split
    · rw [ih (result ++ [c]), ih ([] ++ [c])]; simp
    · split
      · rw [ih (result ++ ['_'.toNat]), ih ([] ++ ['_'.toNat])]; simp
      · exact ih result

theorem sanitizeLoop_eq_spec (name : List Nat) :
    sanitizeLoop [] name
      = (name.map (fun c => if c = ' '.toNat then '_'.toNat else c)).filter inAllowedSet := by
  induction name with
  | nil => rfl
  | cons c rest ih =>
    unfold sanitizeLoop
    by_cases hs : isSafeByte c = true
    · have hne : c ≠ ' '.toNat := by
        rintro rfl
        exact absurd hs (by decide)
      have ha : inAllowedSet c = true := by rw [← isSafeByte_eq_inAllowedSet]; exact hs
      rw [if_pos hs, sanitizeLoop_append, ih]
      simp only [List.map_cons, if_neg hne, List.filter_cons, ha, if_true, List.nil_append,
        List.singleton_append]
    · rw [if_neg hs]
      by_cases hsp : c = ' '.toNat
      · have ha : inAllowedSet '_'.toNat = true := by decide
        rw [if_pos hsp, sanitizeLoop_append, ih]
        simp only [List.map_cons, if_pos hsp, List.filter_cons, ha, if_true, List.nil_append,
          List.singleton_append]
      · have ha : inAllowedSet c = false := by
          rw [← isSafeByte_eq_inAllowedSet]; simpa using hs
        rw [if_neg hsp, ih]
        simp only [List.map_cons, if_neg hsp, List.filter_cons, ha, Bool.false_eq_true, if_false]

theorem sanitizeFilename_eq_spec (name : List Nat) :
    sanitizeFilename name = sanitizeSpec name := by
  unfold sanitizeFilename sanitizeSpec
  simp only [sanitizeLoop_eq_spec, List.length_eq_zero]

theorem sanitizeFilename_allowed (name : List Nat) :
    sanitizeFilename name ≠ [] ∧ ∀ c ∈ sanitizeFilename name, inAllowedSet c = true := by
  rw [sanitizeFilename_eq_spec]
  unfold sanitizeSpec
  simp only []
  split
  · exact ⟨by decide, by decide⟩
  · rename_i hne
    refine ⟨hne, ?_⟩
    intro c hc
    exact (List.mem_filter.mp hc).2

theorem sanitizeFilename_fixed (l : List Nat) (hne : l ≠ [])
    (hall : ∀ c ∈ l, inAllowedSet c = true) : sanitizeFilename l = l := by
  rw [sanitizeFilename_eq_spec]
  unfold sanitizeSpec
  have hmap : l.map (fun c => if c = ' '.toNat then '_'.toNat else c) = l := by
    conv_rhs => rw [← List.map_id l]
    apply List.map_congr_left
    intro c hc
    have hne : c ≠ ' '.toNat := by
      rintro rfl
      exact absurd (hall _ hc) (by decide)
    simp only [if_neg hne, id]
  have hfil : l.filter inAllowedSet = l := List.filter_eq_self.mpr hall
  simp only [hmap, hfil, if_neg hne]

/-- C5: `sanitizeFilename` is idempotent on every byte string. -/
theorem sanitizeFilename_idempotent (s : List Nat) :
    sanitizeFilename (sanitizeFilename s) = sanitizeFilename s :=
  sanitizeFilename_fixed _ (sanitizeFilename_allowed s).1 (sanitizeFilename_allowed s).2

/-- C6: `sanitizeFilename s` is `s` with every space replaced by an underscore and
every byte outside `[A-Za-z0-9._-]` removed, in order, or "document" when that
is empty; so the output is never empty and all its bytes are in `[A-Za-z0-9._-]`. -/
theorem sanitizeFilename_spec (s : List Nat) :
    sanitizeFilename s = sanitizeSpec s ∧
    sanitizeFilename s ≠ [] ∧
    ∀ c ∈ sanitizeFilename s, inAllowedSet c = true :=
  ⟨sanitizeFilename_eq_spec s, sanitizeFilename_allowed s⟩

/-! ## Theorems: button watcher -/

theorem timeSub_ge_iff (t0 t1 T : Int) (hmono : t0 ≤ t1) (hT : T ≤ maxDuration) :
    timeSub t1 t0 ≥ T ↔ t1 - t0 ≥ T := by
  unfold timeSub maxDuration minDuration at *
  split_ifs <;> omega

theorem pollAll_append (w : ButtonWatcher) (l1 l2 : List (Except String Bool × Int)) :
    pollAll w (l1 ++ l2)
      = ((pollAll (pollAll w l1).1 l2).1, (pollAll w l1).2 ++ (pollAll (pollAll w l1).1 l2).2) := by
  induction l1 generalizing w with
  | nil => simp [pollAll]
  | cons m rest ih =>
    obtain ⟨state, now⟩ := m
    rw [List.cons_append]
    simp only [pollAll]
    rw [ih]
    simp only [List.append_assoc]

/-- A poll during a press that does not read "released" keeps the press going,
keeps its start and fires no callback. -/
theorem poll_held (w : ButtonWatcher) (state : Except String Bool) (now : Int)
    (hp : w.isPressed = true) (hs : seesReleased state = false) :
    (poll w state now).1.isPressed = true ∧
    (poll w state now).1.pressStart = w.pressStart ∧
    (poll w state now).1.longPressDur = w.longPressDur ∧
    (poll w state now).1.onShortPress = w.onShortPress ∧
    (poll w state now).1.onLongPress = w.onLongPress ∧
    callbacks (poll w state now).2 = [] := by
  match state, hs with
  | .error e, _ => simp [poll, hp, callbacks]
  | .ok true, _ =>
    simp only [poll, hp]
    split_ifs <;> simp_all [callbacks]
  | .ok false, hs => simp [seesReleased] at hs

theorem pollAll_held (w : ButtonWatcher) (mids : List (Except String Bool × Int))
    (hp : w.isPressed = true) (hmid : ∀ m ∈ mids, seesReleased m.1 = false) :
    (pollAll w mids).1.isPressed = true ∧
    (pollAll w mids).1.pressStart = w.pressStart ∧
    (pollAll w mids).1.longPressDur = w.longPressDur ∧
    (pollAll w mids).1.onShortPress = w.onShortPress ∧
    (pollAll w mids).1.onLongPress = w.onLongPress ∧
    callbacks (pollAll w mids).2 = [] := by
  induction mids generalizing w with
  | nil => simp [pollAll, hp, callbacks]
  | cons m rest ih =>
    obtain ⟨state, now⟩ := m
    have h1 := poll_held w state now hp (hmid (state, now) (List.mem_cons_self _ _))
    have h2 := ih (poll w state now).1 h1.1
      (fun m hm => hmid m (List.mem_cons_of_mem _ hm))
    simp only [pollAll]
    refine ⟨h2.1, h2.2.1.trans h1.2.1, h2.2.2.1.trans h1.2.2.1, h2.2.2.2.1.trans h1.2.2.2.1,
      h2.2.2.2.2.1.trans h1.2.2.2.2.1, ?_⟩
    unfold callbacks at *
    rw [List.filter_append, h1.2.2.2.2.2, h2.2.2.2.2.2]
    rfl

theorem poll_release (w : ButtonWatcher) (t1 : Int) (hp : w.isPressed = true)
    (hshort : w.onShortPress = true) (hlong : w.onLongPress = true) :
    (poll w (.ok false) t1).1.isPressed = false ∧
    (poll w (.ok false) t1).2
      = if timeSub t1 w.pressStart ≥ w.longPressDur then [Effect.longPress]
        else [Effect.shortPress] := by
  simp only [poll, hp, hshort, hlong]
  split_ifs <;> simp_all

theorem press_callbacks (w : ButtonWatcher) (t0 t1 : Int)
    (mids : List (Except String Bool × Int))
    (hrel : w.isPressed = false) (hshort : w.onShortPress = true)
    (hlong : w.onLongPress = true)
    (hmid : ∀ m ∈ mids, seesReleased m.1 = false)
    (hmono : t0 ≤ t1) (hT : w.longPressDur ≤ maxDuration) :
    callbacks (pollAll w ((.ok true, t0) :: (mids ++ [(.ok false, t1)]))).2
      = if t1 - t0 ≥ w.longPressDur then [Effect.longPress] else [Effect.shortPress] := by
  have hfirst : poll w (.ok true) t0
      = ({ w with pressStart := t0, isPressed := true, longPressBeep := false }, []) := by
    simp [poll, hrel]
  have hheld := pollAll_held (poll w (.ok true) t0).1 mids (by rw [hfirst]) hmid
  rw [hfirst] at hheld
  simp only at hheld
  obtain ⟨hp, hstart, hdur, hs, hl, hcb⟩ := hheld
  have hrelease := poll_release _ t1 hp (hs.trans hshort) (hl.trans hlong)
  rw [hstart, hdur] at hrelease
  simp only [pollAll, hfirst, pollAll_append, List.nil_append]
  unfold callbacks at *
  rw [List.filter_append, hcb, List.append_nil, List.nil_append, hrelease.2]
  by_cases hd : t1 - t0 ≥ w.longPressDur
  · rw [if_pos ((timeSub_ge_iff t0 t1 _ hmono hT).mpr hd), if_pos hd]; rfl
  · rw [if_neg (fun h => hd ((timeSub_ge_iff t0 t1 _ hmono hT).mp h)), if_neg hd]; rfl

/-- C7: a watcher with both callbacks set sees a press: a poll reads "pressed"
at `t0` while released, further polls do not read "released", then a poll reads
"released" at `t1`. With `d = t1 - t0` and threshold `T = longPressDur`, exactly
one callback is fired over these polls: `onShortPress` iff `d < T`,
`onLongPress` iff `d ≥ T`. -/
theorem press_classified (w : ButtonWatcher) (t0 t1 : Int)
    (mids : List (Except String Bool × Int))
    (hrel : w.isPressed = false) (hshort : w.onShortPress = true)
    (hlong : w.onLongPress = true)
    (hmid : ∀ m ∈ mids, seesReleased m.1 = false)
    (hmono : t0 ≤ t1) (hT : w.longPressDur ≤ maxDuration) :
    (callbacks (pollAll w ((.ok true, t0) :: (mids ++ [(.ok false, t1)]))).2).length = 1 ∧
    (Effect.shortPress ∈ callbacks (pollAll w ((.ok true, t0) :: (mids ++ [(.ok false, t1)]))).2
      ↔ t1 - t0 < w.longPressDur) ∧
    (Effect.longPress ∈ callbacks (pollAll w ((.ok true, t0) :: (mids ++ [(.ok false, t1)]))).2
      ↔ t1 - t0 ≥ w.longPressDur) := by
  rw [press_callbacks w t0 t1 mids hrel hshort hlong hmid hmono hT]
  by_cases hd : t1 - t0 ≥ w.longPressDur
  · rw [if_pos hd]
    refine ⟨rfl, ?_, ?_⟩
    · simp only [List.mem_singleton]
      exact ⟨fun h => absurd h (by decide), fun h => absurd hd (by omega)⟩
    · simp only [List.mem_singleton, true_iff]
      exact hd
  · rw [if_neg hd]
    refine ⟨rfl, ?_, ?_⟩
    · simp only [List.mem_singleton, true_iff]
      omega
    · simp only [List.mem_singleton]
      exact ⟨fun h => absurd h (by decide), fun h => absurd h hd⟩

/-- Witness of `press_classified`: threshold one second, pressed at 0, polled
(once failing) while held, released after 120 ms: a short press. -/
theorem press_classified_witness :
    (callbacks (pollAll (NewButtonWatcher 0 true true true)
      ((.ok true, 0) ::
        ([(.ok true, 50000000), (.error "busy", 100000000)] ++ [(.ok false, 120000000)]))).2).length
      = 1 ∧
    (Effect.shortPress ∈ callbacks (pollAll (NewButtonWatcher 0 true true true)
      ((.ok true, 0) ::
        ([(.ok true, 50000000), (.error "busy", 100000000)] ++ [(.ok false, 120000000)]))).2
      ↔ (120000000 : Int) - 0 < (NewButtonWatcher 0 true true true).longPressDur) ∧
    (Effect.longPress ∈ callbacks (pollAll (NewButtonWatcher 0 true true true)
      ((.ok true, 0) ::
        ([(.ok true, 50000000), (.error "busy", 100000000)] ++ [(.ok false, 120000000)]))).2
      ↔ (120000000 : Int) - 0 ≥ (NewButtonWatcher 0 true true true).longPressDur) :=
  press_classified (NewButtonWatcher 0 true true true) 0 120000000
    [(.ok true, 50000000), (.error "busy", 100000000)] rfl rfl rfl (by decide) (by decide)
    (by decide)

/-- C8 (counterexample): during a press, a poll whose read fails leaves the
watcher pressed and fires nothing, while a poll that reads "not pressed" at the
same time ends the press and fires `onShortPress`. -/
theorem error_poll_not_release :
    heldWatcher.isPressed = true ∧
    poll heldWatcher (.error "busy") 50000000 = (heldWatcher, []) ∧
    (poll heldWatcher (.ok false) 50000000).1.isPressed = false ∧
    (poll heldWatcher (.ok false) 50000000).2 = [Effect.shortPress] ∧
    poll heldWatcher (.error "busy") 50000000 ≠ poll heldWatcher (.ok false) 50000000 := by
  decide

/-- C8 (as amended): a poll whose read fails changes nothing in the watcher and
fires nothing; it has the effect of a poll that reads "not pressed" exactly when
no press is in progress. -/
theorem error_poll_unchanged (w : ButtonWatcher) (e : String) (now : Int) :
    poll w (.error e) now = (w, []) ∧
    (poll w (.error e) now = poll w (.ok false) now ↔ w.isPressed = false) := by
  refine ⟨rfl, ?_⟩
  cases hp : w.isPressed with
  | false => simp [poll, hp]
  | true =>
    have hrel : (poll w (.ok false) now).1.isPressed = false := by
      simp only [poll, hp]
      split_ifs <;> simp_all
    constructor
    · intro h
      have h2 : (poll w (.error e) now).1.isPressed = false := by rw [h]; exact hrel
      rw [← h2]
      exact hp.symm
    · intro h
      exact absurd h (by decide)

/-! ## Theorems: blank-page detector -/

theorem countRow_dark (img : Image) (hd : ∀ x y, grayY (img.At x y) ≤ 240) (y : Int) :
    ∀ (n : Nat) (x w : Int), (img.maxX - x).toNat = n → countRow img y x w = w := by
  intro n
  induction n using Nat.strong_induction_on with
  | _ n ih =>
    intro x w hn
    rw [countRow]
    split
    · have hle := hd x y
      rw [if_neg (by omega)]
      exact ih (img.maxX - (x + 4)).toNat (by omega) (x + 4) w rfl
    · rfl

theorem countRows_dark (img : Image) (hd : ∀ x y, grayY (img.At x y) ≤ 240) :
    ∀ (n : Nat) (y w : Int), (img.maxY - y).toNat = n → countRows img y w = w := by
  intro n
  induction n using Nat.strong_induction_on with
  | _ n ih =>
    intro y w hn
    rw [countRows]
    split
    · rw [countRow_dark img hd y _ img.minX w rfl]
      exact ih (img.maxY - (y + 4)).toNat (by omega) (y + 4) w rfl
    · rfl

/-- Where both sides of the image are at least 4 pixels long, an image without a
pixel of luminance above 240 is not blank at any positive threshold. -/
theorem isBlankPage_dark_large (img : Image) (t : ℚ)
    (hd : ∀ x y, grayY (img.At x y) ≤ 240) (hx : 4 ≤ img.Dx) (hy : 4 ≤ img.Dy) (ht : 0 < t) :
    isBlankPage img t = false := by
  have hqx : 1 ≤ img.Dx.tdiv 4 := by
    rw [Int.tdiv_eq_ediv (by omega) (by omega)]
    omega
  have hqy : 1 ≤ img.Dy.tdiv 4 := by
    rw [Int.tdiv_eq_ediv (by omega) (by omega)]
    omega
  have htot : img.Dx * img.Dy ≠ 0 := by positivity
  have hsam : img.Dx.tdiv 4 * img.Dy.tdiv 4 ≠ 0 := by positivity
  unfold isBlankPage
  simp only [if_neg htot, if_neg hsam, countRows_dark img hd _ img.minY 0 rfl]
  simpa using ht

/-- C9 (the code at the failing input): of the 5×5 image that is black except
for a white pixel at the origin, four pixels are sampled and one of them is
white, so the sampled white ratio 1/4 is below 0.99; `isBlankPage` divides by
`(5/4)*(5/4) = 1` and returns true. -/
theorem isBlankPage_cornerLit :
    sampledCount cornerLit = 4 ∧ whiteCount cornerLit = 1 ∧
    ¬ ((whiteCount cornerLit : ℚ) / (sampledCount cornerLit : ℚ) ≥ 99 / 100) ∧
    isBlankPage cornerLit (99 / 100) = true := by
  have hs : sampledCount cornerLit = 4 := by decide
  have hw : whiteCount cornerLit = 1 := by decide
  refine ⟨hs, hw, ?_, ?_⟩
  · rw [hs, hw]; norm_num
  · have h : Int.tdiv 5 4 = 1 := by decide
    simp [isBlankPage, countRows, countRow, cornerLit, grayY, white, black, Image.Dx, Image.Dy, h]
    norm_num

/-- C10 (the code at the failing input): the 1×1 image whose pixel is black has
one pixel, of luminance 0, and `isBlankPage` returns true for it at the
threshold 0.99, as at every other threshold. -/
theorem isBlankPage_blackDot :
    blackDot.Dx * blackDot.Dy = 1 ∧ grayY (blackDot.At 0 0) = 0 ∧
    isBlankPage blackDot (99 / 100) = true ∧ ∀ t : ℚ, isBlankPage blackDot t = true := by
  have h : Int.tdiv 1 4 = 0 := by decide
  have hall : ∀ t : ℚ, isBlankPage blackDot t = true := by
    intro t
    simp [isBlankPage, blackDot, Image.Dx, Image.Dy, h]
  exact ⟨by decide, by decide, hall _, hall⟩

theorem countRow_white (img : Image) (y : Int)
    (hw : ∀ x, img.minX ≤ x → x < img.maxX → grayY (img.At x y) > 240) :
    ∀ (n : Nat) (x w : Int), (img.maxX - x).toNat = n → img.minX ≤ x →
      countRow img y x w = w + ((((img.maxX - x).toNat + 3) / 4 : Nat) : Int) := by
  intro n
  induction n using Nat.strong_induction_on with
  | _ n ih =>
    intro x w hn hx
    rw [countRow]
    split
    · rename_i hlt
      rw [if_pos (hw x hx hlt),
        ih (img.maxX - (x + 4)).toNat (by omega) (x + 4) (w + 1) rfl (by omega)]
      omega
    · omega

theorem countRows_white (img : Image)
    (hw : ∀ x y, img.minX ≤ x → x < img.maxX → img.minY ≤ y → y < img.maxY →
      grayY (img.At x y) > 240) :
    ∀ (n : Nat) (y w : Int), (img.maxY - y).toNat = n → img.minY ≤ y →
      countRows img y w
        = w + ((((img.maxY - y).toNat + 3) / 4 : Nat) : Int)
            * ((((img.maxX - img.minX).toNat + 3) / 4 : Nat) : Int) := by
  intro n
  induction n using Nat.strong_induction_on with
  | _ n ih =>
    intro y w hn hy
    rw [countRows]
    split
    · rename_i hlt
      rw [countRow_white img y (fun x h1 h2 => hw x y h1 h2 hy hlt) _ img.minX w rfl le_rfl,
        ih (img.maxY - (y + 4)).toNat (by omega) (y + 4) _ rfl (by omega)]
      have hr : (((img.maxY - y).toNat + 3) / 4 : Nat)
          = ((img.maxY - (y + 4)).toNat + 3) / 4 + 1 := by omega
      rw [hr]
      push_cast
      ring
    · have hr : (((img.maxY - y).toNat + 3) / 4 : Nat) = 0 := by omega
      rw [hr]
      simp

theorem isBlankPage_bright (img : Image) (t : ℚ)
    (hx : img.minX ≤ img.maxX) (hy : img.minY ≤ img.maxY)
    (hw : ∀ x y, img.minX ≤ x → x < img.maxX → img.minY ≤ y → y < img.maxY →
      grayY (img.At x y) > 240)
    (ht : t ≤ 1) : isBlankPage img t = true := by
  unfold isBlankPage
  simp only []
  split
  · rfl
  · split
    · rfl
    · rename_i htot hsam
      rw [countRows_white img hw _ img.minY 0 rfl le_rfl]
      have hdx : 0 ≤ img.Dx := by unfold Image.Dx; omega
      have hdy : 0 ≤ img.Dy := by unfold Image.Dy; omega
      have ex : img.Dx.tdiv 4 = img.Dx / 4 := Int.tdiv_eq_ediv hdx (by omega)
      have ey : img.Dy.tdiv 4 = img.Dy / 4 := Int.tdiv_eq_ediv hdy (by omega)
      rw [ex, ey] at hsam ⊢
      have hqx : 0 ≤ img.Dx / 4 := by omega
      have hqy : 0 ≤ img.Dy / 4 := by omega
      have hcols : img.Dx / 4 ≤ ((((img.maxX - img.minX).toNat + 3) / 4 : Nat) : Int) := by
        unfold Image.Dx; omega
      have hrows : img.Dy / 4 ≤ ((((img.maxY - img.minY).toNat + 3) / 4 : Nat) : Int) := by
        unfold Image.Dy; omega
      have hpos : 0 < img.Dx / 4 * (img.Dy / 4) :=
        lt_of_le_of_ne (mul_nonneg hqx hqy) (Ne.symm hsam)
      have hle : img.Dx / 4 * (img.Dy / 4)
          ≤ 0 + ((((img.maxY - img.minY).toNat + 3) / 4 : Nat) : Int)
              * ((((img.maxX - img.minX).toNat + 3) / 4 : Nat) : Int) := by
        rw [zero_add, mul_comm (img.Dx / 4)]
        exact mul_le_mul hrows hcols hqx (le_trans hqy hrows)
      have hposq : (0 : ℚ) < ((img.Dx / 4 * (img.Dy / 4) : Int) : ℚ) := by exact_mod_cast hpos
      have hleq : ((img.Dx / 4 * (img.Dy / 4) : Int) : ℚ)
          ≤ ((0 + ((((img.maxY - img.minY).toNat + 3) / 4 : Nat) : Int)
              * ((((img.maxX - img.minX).toNat + 3) / 4 : Nat) : Int) : Int) : ℚ) := by
        exact_mod_cast hle
      have hone := (one_le_div hposq).mpr hleq
      simp only [decide_eq_true_eq, ge_iff_le]
      exact le_trans ht hone

theorem isWhite_bright (c : Color) (h : c.isWhite = true) : grayY c > 240 := by
  cases c with
  | gray y =>
    simp only [Color.isWhite, Color.RGBA, decide_eq_true_eq] at h
    have hy : y = 255 := by omega
    subst hy
    decide
  | rgba r g b a =>
    simp only [Color.isWhite, Color.RGBA, decide_eq_true_eq] at h
    obtain ⟨hr, hg, hb⟩ := h
    subst hr hg hb
    show ((19595 * 65535 + 38470 * 65535 + 7471 * 65535 + 2 ^ 15) / 2 ^ 24) % 256 > 240
    decide

/-- C11: an image with well-formed bounds, of any width and height and in any
colour model, whose pixels are all white (`RGBA()` gives full intensity on the
three colour channels: `color.White`, `color.Gray{255}`, ...) is blank at
every threshold `t ≤ 1`. -/
theorem isBlankPage_white (img : Image) (t : ℚ)
    (hx : img.minX ≤ img.maxX) (hy : img.minY ≤ img.maxY)
    (hw : ∀ x y, img.minX ≤ x → x < img.maxX → img.minY ≤ y → y < img.maxY →
      (img.At x y).isWhite = true)
    (ht : t ≤ 1) : isBlankPage img t = true :=
  isBlankPage_bright img t hx hy
    (fun x y h1 h2 h3 h4 => isWhite_bright _ (hw x y h1 h2 h3 h4)) ht

/-- Witness of `isBlankPage_white`: the 100×100 white image of `TestIsBlankPage`
at the threshold 0.99, and a small grayscale page of `color.Gray{255}` pixels at
the threshold 1. -/
theorem isBlankPage_white_witness :
    whiteSquare.minX ≤ whiteSquare.maxX ∧ whiteSquare.minY ≤ whiteSquare.maxY ∧
    ((99 : ℚ) / 100 ≤ 1) ∧ isBlankPage whiteSquare (99 / 100) = true ∧
    isBlankPage grayWhitePage 1 = true :=
  ⟨by decide, by decide, by norm_num,
    isBlankPage_white whiteSquare (99 / 100) (by decide) (by decide)
      (fun _ _ _ _ _ _ => rfl) (by norm_num),
    isBlankPage_white grayWhitePage 1 (by decide) (by decide)
      (fun _ _ _ _ _ _ => rfl) le_rfl⟩

/-! ## Theorems: scanner controller -/

theorem backendSet_flags (b : Backend) (s : Scanner) (name : String) (value : OptVal) :
    (backendSet b s name value).1.connected = s.connected ∧
    (backendSet b s name value).1.scanning = s.scanning := ⟨rfl, rfl⟩

theorem SetOptions_flags (b : Backend) (s : Scanner) (opts : ScanOptions) :
    (SetOptions b s opts).1.connected = s.connected ∧
    (SetOptions b s opts).1.scanning = s.scanning := by
  unfold SetOptions
  simp only []
  split
  · exact ⟨rfl, rfl⟩
  · split
    · split_ifs <;> exact ⟨rfl, rfl⟩
    · split
      · split_ifs <;> exact ⟨rfl, rfl⟩
      · split
        · split_ifs <;> exact ⟨rfl, rfl⟩
        · split_ifs <;> exact ⟨rfl, rfl⟩

theorem Open_scanning (b : Backend) (s : Scanner) (deviceName : String) :
    (Scanner.Open b s deviceName).1.scanning = s.scanning := by
  unfold Scanner.Open
  simp only []
  split <;> rfl

theorem GetButtonState_scanning (b : Backend) (s : Scanner) (name : String) :
    (GetButtonState b s name).1.scanning = s.scanning := by
  unfold GetButtonState
  simp only []
  split
  · rfl
  · split <;> rfl

theorem scanEnter_busy (s : Scanner) (hs : s.scanning = true) :
    scanEnter s
      = (s, some (if s.connected then ScanErr.ErrBusy else ScanErr.ErrNotConnected)) := by
  unfold scanEnter
  cases hc : s.connected <;> simp [hs]

theorem step_exclusive (b : Backend) (c : Ctl) (ev : CtlEvent) (h : c.Exclusive) :
    (Ctl.step b c ev).Exclusive := by
  obtain ⟨h1, h2⟩ := h
  cases ev with
  | «open» deviceName =>
    exact ⟨h1, by simpa [Ctl.step, Open_scanning] using h2⟩
  | close => exact ⟨h1, by simpa [Ctl.step, Scanner.Close] using h2⟩
  | setOptions opts =>
    exact ⟨h1, by simpa [Ctl.step, (SetOptions_flags b c.sc opts).2] using h2⟩
  | getButton name =>
    exact ⟨h1, by simpa [Ctl.step, GetButtonState_scanning] using h2⟩
  | scanEnter =>
    cases hsc : c.sc.scanning with
    | true =>
      have : Ctl.step b c CtlEvent.scanEnter = c := by
        simp [Ctl.step, scanEnter_busy c.sc hsc]
      rw [this]
      exact ⟨h1, h2⟩
    | false =>
      have h0 : c.setups + c.streams = 0 := by
        rcases Nat.lt_or_ge (c.setups + c.streams) 1 with h | h
        · omega
        · have := h2.mpr (by omega)
          rw [hsc] at this
          exact absurd this (by decide)
      cases hcn : c.sc.connected with
      | false =>
        have : Ctl.step b c CtlEvent.scanEnter = c := by
          simp [Ctl.step, scanEnter, hcn]
        rw [this]
        exact ⟨h1, h2⟩
      | true =>
        have : Ctl.step b c CtlEvent.scanEnter
            = { c with sc := { c.sc with scanning := true }, setups := c.setups + 1 } := by
          simp [Ctl.step, scanEnter, hcn, hsc]
        rw [this]
        refine ⟨?_, ?_⟩
        · show c.setups + 1 + c.streams ≤ 1
          omega
        · show true = true ↔ c.setups + 1 + c.streams = 1
          exact ⟨fun _ => by omega, fun _ => rfl⟩
  | scanSetup opts =>
    by_cases hz : c.setups = 0
    · have : Ctl.step b c (CtlEvent.scanSetup opts) = c := by simp [Ctl.step, hz]
      rw [this]
      exact ⟨h1, h2⟩
    · have hst : c.setups = 1 ∧ c.streams = 0 := by omega
      have hflag : c.sc.scanning = true := h2.mpr (by omega)
      have hkeep := (SetOptions_flags b c.sc opts).2
      cases hr : SetOptions b c.sc opts with
      | mk s1 err =>
        rw [hr] at hkeep
        cases err with
        | some e =>
          have : Ctl.step b c (CtlEvent.scanSetup opts)
              = { c with sc := { s1 with scanning := false }, setups := c.setups - 1 } := by
            simp [Ctl.step, hz, scanSetup, hr]
          rw [this]
          refine ⟨?_, ?_⟩
          · show c.setups - 1 + c.streams ≤ 1
            omega
          · show false = true ↔ c.setups - 1 + c.streams = 1
            exact ⟨fun h => absurd h (by decide), fun h => by omega⟩
        | none =>
          have : Ctl.step b c (CtlEvent.scanSetup opts)
              = { sc := s1, setups := c.setups - 1, streams := c.streams + 1 } := by
            simp [Ctl.step, hz, scanSetup, hr]
          rw [this]
          simp only at hkeep
          refine ⟨?_, ?_⟩
          · show c.setups - 1 + (c.streams + 1) ≤ 1
            omega
          · show s1.scanning = true ↔ c.setups - 1 + (c.streams + 1) = 1
            exact ⟨fun _ => by omega, fun _ => by rw [hkeep]; exact hflag⟩
  | streamRead =>
    by_cases hz : c.streams = 0
    · have : Ctl.step b c CtlEvent.streamRead = c := by simp [Ctl.step, hz]
      rw [this]
      exact ⟨h1, h2⟩
    · exact ⟨by simpa [Ctl.step, hz] using h1, by simpa [Ctl.step, hz] using h2⟩
  | streamExit =>
    by_cases hz : c.streams = 0
    · have : Ctl.step b c CtlEvent.streamExit = c := by simp [Ctl.step, hz]
      rw [this]
      exact ⟨h1, h2⟩
    · have : Ctl.step b c CtlEvent.streamExit
          = { c with sc := streamExit c.sc, streams := c.streams - 1 } := by
        simp [Ctl.step, hz]
      rw [this]
      refine ⟨?_, ?_⟩
      · show c.setups + (c.streams - 1) ≤ 1
        omega
      · show false = true ↔ c.setups + (c.streams - 1) = 1
        exact ⟨fun h => absurd h (by decide), fun h => by omega⟩

theorem run_exclusive (b : Backend) (evs : List CtlEvent) (c : Ctl) (h : c.Exclusive) :
    (Ctl.run b c evs).Exclusive := by
  induction evs generalizing c with
  | nil => exact h
  | cons ev rest ih => exact ih (Ctl.step b c ev) (step_exclusive b c ev h)

theorem init_exclusive (deviceName : String) : (Ctl.init deviceName).Exclusive :=
  ⟨Nat.zero_le 1, by simp [Ctl.init, New]⟩

/-- C12 (counterexample): a stream is in flight and the device is closed; the
scanning flag is still set, and a `ScanBatch` call now returns
`ErrNotConnected`, not `ErrBusy`. -/
theorem ScanBatch_closed_while_scanning :
    closedWhileScanning.sc.scanning = true ∧ closedWhileScanning.sc.connected = false ∧
    closedWhileScanning.streams = 1 ∧
    (ScanBatch pressedBackend closedWhileScanning.sc oversizeOptions).2
      = some ScanErr.ErrNotConnected ∧
    (ScanBatch pressedBackend closedWhileScanning.sc oversizeOptions).2
      ≠ some ScanErr.ErrBusy := by
  have h : closedWhileScanning.sc
      = { deviceName := "test:0", connected := false, scanning := true,
          calls := [Call.Open "test:0", Call.SetOption "resolution" (OptVal.int 200),
            Call.SetOption "mode" (OptVal.str "gray"),
            Call.SetOption "source" (OptVal.str "adf_duplex"),
            Call.SetOption "page-height" (OptVal.int 0),
            Call.SetOption "page-width" (OptVal.float 210), Call.CloseDevice] } := by
    simp [closedWhileScanning, scanningCtl, Ctl.run, Ctl.step, Ctl.init, New, Scanner.Open,
      Scanner.Close, scanEnter, scanSetup, SetOptions, backendSet, pressedBackend,
      oversizeOptions]
  have hst : closedWhileScanning.streams = 1 := by
    simp [closedWhileScanning, scanningCtl, Ctl.run, Ctl.step, Ctl.init, New, Scanner.Open,
      scanEnter, scanSetup, SetOptions, backendSet, pressedBackend, oversizeOptions]
  refine ⟨by rw [h], by rw [h], hst, ?_, ?_⟩
  · rw [h]; simp [ScanBatch, scanEnter]
  · rw [h]; simp [ScanBatch, scanEnter]

/-- C12 (as amended): in every reachable state of the controller at most one
scan stream is in flight; and a `ScanBatch` call made while the scanning flag
is set returns an error (`ErrBusy` on an open device, `ErrNotConnected` on a
device closed meanwhile), starts no stream and leaves the state unchanged. -/
theorem ScanBatch_exclusive (b : Backend) (deviceName : String) (evs : List CtlEvent)
    (opts : ScanOptions) :
    (Ctl.run b (Ctl.init deviceName) evs).streams ≤ 1 ∧
    ((Ctl.run b (Ctl.init deviceName) evs).sc.scanning = true →
      ScanBatch b (Ctl.run b (Ctl.init deviceName) evs).sc opts
        = ((Ctl.run b (Ctl.init deviceName) evs).sc,
           some (if (Ctl.run b (Ctl.init deviceName) evs).sc.connected then ScanErr.ErrBusy
                 else ScanErr.ErrNotConnected)) ∧
      Ctl.step b (Ctl.run b (Ctl.init deviceName) evs) CtlEvent.scanEnter
        = Ctl.run b (Ctl.init deviceName) evs) := by
  have hinv := run_exclusive b evs (Ctl.init deviceName) (init_exclusive deviceName)
  refine ⟨by have := hinv.1; omega, fun hs => ⟨?_, ?_⟩⟩
  · simp only [ScanBatch, scanEnter_busy _ hs]
  · simp only [Ctl.step, scanEnter_busy _ hs]

/-- Witness of `ScanBatch_exclusive`: the stub-like backend, a device opened and
a stream started; the flag is set and a further `ScanBatch` returns `ErrBusy`. -/
theorem ScanBatch_exclusive_witness :
    (Ctl.run pressedBackend (Ctl.init "")
      [CtlEvent.open "test:0", CtlEvent.scanEnter, CtlEvent.scanSetup oversizeOptions]).streams
      ≤ 1 ∧
    (ScanBatch pressedBackend (Ctl.run pressedBackend (Ctl.init "")
      [CtlEvent.open "test:0", CtlEvent.scanEnter, CtlEvent.scanSetup oversizeOptions]).sc
      oversizeOptions).2 = some ScanErr.ErrBusy := by
  have h := ScanBatch_exclusive pressedBackend ""
    [CtlEvent.open "test:0", CtlEvent.scanEnter, CtlEvent.scanSetup oversizeOptions]
    oversizeOptions
  have hs : (Ctl.run pressedBackend (Ctl.init "")
      [CtlEvent.open "test:0", CtlEvent.scanEnter,
        CtlEvent.scanSetup oversizeOptions]).sc.scanning = true := by
    simp [Ctl.run, Ctl.step, Ctl.init, New, Scanner.Open, scanEnter, scanSetup, SetOptions,
      backendSet, pressedBackend, oversizeOptions]
  have hc : (Ctl.run pressedBackend (Ctl.init "")
      [CtlEvent.open "test:0", CtlEvent.scanEnter,
        CtlEvent.scanSetup oversizeOptions]).sc.connected = true := by
    simp [Ctl.run, Ctl.step, Ctl.init, New, Scanner.Open, scanEnter, scanSetup, SetOptions,
      backendSet, pressedBackend, oversizeOptions]
  refine ⟨h.1, ?_⟩
  rw [(h.2 hs).1, hc]
  rfl

theorem numberedFrom_numbers (pageNum : Int) (imgs : List Image) :
    (numberedFrom pageNum imgs).map (fun p => p.Number)
      = (List.range imgs.length).map (fun (i : Nat) => pageNum + (i : Int) + 1) := by
  induction imgs generalizing pageNum with
  | nil => rfl
  | cons img rest ih =>
    simp only [numberedFrom, List.map_cons, List.length_cons, List.range_succ_eq_map,
      List.map_map, ih]
    refine congrArg₂ _ (by simp) ?_
    apply List.map_congr_left
    intro i _
    simp only [Function.comp, Nat.succ_eq_add_one]
    push_cast
    ring

theorem numberedFrom_sizes (pageNum : Int) (imgs : List Image) :
    (numberedFrom pageNum imgs).map (fun p => (p.Width, p.Height))
      = imgs.map (fun img => (img.Dx, img.Dy)) ∧
    (numberedFrom pageNum imgs).length = imgs.length ∧
    ∀ p ∈ numberedFrom pageNum imgs, p.Err = none := by
  induction imgs generalizing pageNum with
  | nil => exact ⟨rfl, rfl, by simp [numberedFrom]⟩
  | cons img rest ih =>
    obtain ⟨h1, h2, h3⟩ := ih (pageNum + 1)
    refine ⟨by simp [numberedFrom, h1], by simp [numberedFrom, h2], ?_⟩
    intro p hp
    simp only [numberedFrom, List.mem_cons] at hp
    rcases hp with rfl | hp
    · rfl
    · exact h3 p hp

theorem streamLoop_feed (b : Backend) (done : Nat → Bool) (e : String)
    (hdone : ∀ i, done i = false) :
    ∀ (imgs : List Image) (fuel iter : Nat) (pageNum : Int) (calls : List Call),
      (∀ i (hi : i < imgs.length),
        b.ReadImage (calls ++ List.replicate i Call.ReadImage) = .ok (imgs.get ⟨i, hi⟩)) →
      b.ReadImage (calls ++ List.replicate imgs.length Call.ReadImage) = .error e →
      imgs.length < fuel →
      streamLoop b done fuel iter pageNum calls
        = some (numberedFrom pageNum imgs ++ (if isEndOfFeed e then [] else [errorPage e]),
                calls ++ List.replicate (imgs.length + 1) Call.ReadImage) := by
  intro imgs
  induction imgs with
  | nil =>
    intro fuel iter pageNum calls _ herr hfuel
    obtain ⟨f, rfl⟩ : ∃ f, fuel = f + 1 := ⟨fuel - 1, by simp at hfuel; omega⟩
    simp only [List.length_nil, List.replicate_zero, List.append_nil] at herr
    simp only [streamLoop, hdone, herr, numberedFrom, List.nil_append, List.length_nil,
      zero_add, List.replicate_one, Bool.false_eq_true, if_false, errorPage]
    by_cases hend : isEndOfFeed e = true
    · simp only [hend, if_true]
    · rw [Bool.not_eq_true] at hend
      simp only [hend, Bool.false_eq_true, if_false]
  | cons img rest ih =>
    intro fuel iter pageNum calls hreads herr hfuel
    obtain ⟨f, rfl⟩ : ∃ f, fuel = f + 1 := ⟨fuel - 1, by simp at hfuel; omega⟩
    have h0 : b.ReadImage calls = .ok img := by
      have := hreads 0 (by simp)
      simpa using this
    have hshift : ∀ i, (calls ++ [Call.ReadImage]) ++ List.replicate i Call.ReadImage
        = calls ++ List.replicate (i + 1) Call.ReadImage := by
      intro i
      rw [List.append_assoc, List.replicate_succ]
      rfl
    have hrest := ih f (iter + 1) (pageNum + 1) (calls ++ [Call.ReadImage])
      (fun i hi => by
        rw [hshift]
        have := hreads (i + 1) (by simp; omega)
        simpa using this)
      (by rw [hshift]; simpa using herr)
      (by simp at hfuel; omega)
    simp only [streamLoop, hdone, h0, hrest, numberedFrom, hshift, List.length_cons,
      List.cons_append]
    rfl

theorem feeder_reads (imgs : List Image) (e : String) (calls : List Call)
    (h0 : calls.count Call.ReadImage = 0) :
    (∀ i (hi : i < imgs.length),
      (feederBackend imgs e).ReadImage (calls ++ List.replicate i Call.ReadImage)
        = .ok (imgs.get ⟨i, hi⟩)) ∧
    (feederBackend imgs e).ReadImage (calls ++ List.replicate imgs.length Call.ReadImage)
      = .error e := by
  constructor
  · intro i hi
    simp only [feederBackend, List.count_append, h0, List.count_replicate_self, zero_add,
      List.get?_eq_get hi]
  · simp only [feederBackend, List.count_append, h0, List.count_replicate_self, zero_add,
      List.get?_eq_none.mpr (le_refl _)]

theorem isEndOfFeed_iff (e : String) :
    isEndOfFeed e = true ↔
      e ∈ ["document feeder out of documents", "no more data available", "end of file"] := by
  simp [isEndOfFeed, or_assoc]

/-- C13: `ScanBatch` returns the page channel (so the device is open and idle and
the options were accepted), the backend then yields the images `imgs` and after
them the read error with message `e`, and the context is not cancelled. Then
the stream delivers one page per image, numbered 1..k in order, each with the
width and height of its image and without error; after them nothing if `e` is
"document feeder out of documents", "no more data available" or "end of file",
and for every other `e` exactly one page carrying `e`; and it closes, clearing
the scanning flag. -/
theorem scanAll_feed (b : Backend) (done : Nat → Bool) (fuel : Nat) (s : Scanner)
    (opts : ScanOptions) (imgs : List Image) (e : String)
    (hret : (ScanBatch b s opts).2 = none)
    (hdone : ∀ i, done i = false)
    (hreads : ∀ i (hi : i < imgs.length),
      b.ReadImage ((ScanBatch b s opts).1.calls ++ List.replicate i Call.ReadImage)
        = .ok (imgs.get ⟨i, hi⟩))
    (herr : b.ReadImage ((ScanBatch b s opts).1.calls
      ++ List.replicate imgs.length Call.ReadImage) = .error e)
    (hfuel : imgs.length < fuel) :
    (scanAll b done fuel s opts).2
      = .ok (some (numberedFrom 0 imgs ++
          (if e = "document feeder out of documents" ∨ e = "no more data available" ∨
              e = "end of file" then []
           else [{ Number := 0, Width := 0, Height := 0, Image := none, Err := some e }]))) ∧
    (numberedFrom 0 imgs).length = imgs.length ∧
    (numberedFrom 0 imgs).map (fun p => p.Number) = oneTo imgs.length ∧
    (numberedFrom 0 imgs).map (fun p => (p.Width, p.Height))
      = imgs.map (fun img => (img.Dx, img.Dy)) ∧
    (∀ p ∈ numberedFrom 0 imgs, p.Err = none) ∧
    (scanAll b done fuel s opts).1.scanning = false := by
  have hloop := streamLoop_feed b done e hdone imgs fuel 0 0 _ hreads herr hfuel
  have hsz := numberedFrom_sizes 0 imgs
  have hnum : (numberedFrom 0 imgs).map (fun p => p.Number) = oneTo imgs.length := by
    rw [numberedFrom_numbers]
    unfold oneTo
    apply List.map_congr_left
    intro i _
    ring
  have hend : (if isEndOfFeed e = true then [] else [errorPage e])
      = (if e = "document feeder out of documents" ∨ e = "no more data available" ∨
              e = "end of file" then []
         else [({ Number := 0, Width := 0, Height := 0, Image := none, Err := some e }
                : ScanPage)]) := by
    have h := isEndOfFeed_iff e
    simp only [List.mem_cons, List.mem_singleton, List.not_mem_nil, or_false] at h
    by_cases he : isEndOfFeed e = true
    · rw [if_pos he, if_pos (h.mp he)]
    · rw [if_neg he, if_neg (fun hc => he (h.mpr hc))]
      rfl
  cases hsb : ScanBatch b s opts with
  | mk s1 err =>
    rw [hsb] at hret hloop
    simp only at hret hloop
    subst hret
    refine ⟨?_, hsz.2.1, hnum, hsz.1, hsz.2.2, ?_⟩
    · simp only [scanAll, hsb, hloop, hend]
    · simp only [scanAll, hsb, hloop, streamExit]

/-- Witness of `scanAll_feed`: an open, idle scanner whose feeder holds two
sheets and then reports "end of file": two pages, numbered 1 and 2, and no
error page. -/
theorem scanAll_feed_witness :
    (ScanBatch (feederBackend [whiteSquare, blackDot] "end of file") openScanner
      oversizeOptions).2 = none ∧
    (scanAll (feederBackend [whiteSquare, blackDot] "end of file") (fun _ => false) 3
      openScanner oversizeOptions).2
      = .ok (some [{ Number := 1, Width := 100, Height := 100, Image := some whiteSquare,
                     Err := none },
                   { Number := 2, Width := 1, Height := 1, Image := some blackDot,
                     Err := none }]) := by
  have hcalls : ((ScanBatch (feederBackend [whiteSquare, blackDot] "end of file") openScanner
      oversizeOptions).1.calls).count Call.ReadImage = 0 := by
    simp [ScanBatch, scanEnter, scanSetup, SetOptions, backendSet, openScanner, Scanner.Open,
      New, pressedBackend, feederBackend, oversizeOptions]
  have hret : (ScanBatch (feederBackend [whiteSquare, blackDot] "end of file") openScanner
      oversizeOptions).2 = none := by
    simp [ScanBatch, scanEnter, scanSetup, SetOptions, backendSet, openScanner, Scanner.Open,
      New, pressedBackend, feederBackend, oversizeOptions]
  have hr := feeder_reads [whiteSquare, blackDot] "end of file" _ hcalls
  have h := scanAll_feed (feederBackend [whiteSquare, blackDot] "end of file")
    (fun _ => false) 3 openScanner oversizeOptions [whiteSquare, blackDot] "end of file"
    hret (fun _ => rfl) hr.1 hr.2 (by decide)
  refine ⟨hret, ?_⟩
  rw [h.1]
  simp [numberedFrom, Image.Dx, Image.Dy, whiteSquare, blackDot]

/-- C14, counterexample: the device is open and a scan is in progress, and
`GetButtonState("scan")` returns `(true, nil)`, the answer of the backend. -/
theorem GetButtonState_during_scan :
    scanningCtl.sc.connected = true ∧ scanningCtl.sc.scanning = true ∧
    (GetButtonState pressedBackend scanningCtl.sc "scan").2 = Except.ok true := by
  simp [GetButtonState, scanningCtl, Ctl.run, Ctl.step, Ctl.init, New, Scanner.Open,
    scanEnter, scanSetup, SetOptions, backendSet, pressedBackend, oversizeOptions]

/-- C14, amended: on an open device `GetButtonState(name)` asks the backend
whether or not a scan is in progress and returns its answer: the error of the
backend, the value of a boolean option, and `(false, nil)` for an option that
is not a boolean; the scanning flag has no influence on the result. -/
theorem GetButtonState_answer (b : Backend) (s : Scanner) (name : String)
    (hconn : s.connected = true) :
    (GetButtonState b s name).2
      = (match b.GetOption s.calls name with
         | .error e => .error (ScanErr.backend e)
         | .ok (OptVal.bool v) => .ok v
         | .ok _ => .ok false) ∧
    (GetButtonState b s name).1.calls = s.calls ++ [Call.GetOption name] ∧
    (GetButtonState b { s with scanning := !s.scanning } name).2 = (GetButtonState b s name).2 := by
  simp only [GetButtonState, hconn, Bool.not_true, Bool.false_eq_true, if_false]
  refine ⟨?_, ?_, ?_⟩
  · split <;> simp_all
  · split <;> rfl
  · cases b.GetOption s.calls name with
    | error e => rfl
    | ok v => cases v <;> rfl

/-- Witness of `GetButtonState_answer`: the open scanner of the tests. -/
theorem GetButtonState_answer_witness :
    openScanner.connected = true ∧
    (GetButtonState pressedBackend openScanner "scan").2
      = (match pressedBackend.GetOption openScanner.calls "scan" with
         | .error e => .error (ScanErr.backend e)
         | .ok (OptVal.bool v) => .ok v
         | .ok _ => .ok false) :=
  ⟨by simp [openScanner, Scanner.Open, New, pressedBackend],
   (GetButtonState_answer pressedBackend openScanner "scan"
      (by simp [openScanner, Scanner.Open, New, pressedBackend])).1⟩

/-- C15: when no device is open, `SetOptions`, `ScanBatch` and `GetButtonState`
each fail with `ErrNotConnected` for every argument, and the controller is left
as it was: no backend call is logged and no flag is changed. -/
theorem not_connected_fails (b : Backend) (s : Scanner) (opts : ScanOptions) (name : String)
    (hconn : s.connected = false) :
    SetOptions b s opts = (s, some ScanErr.ErrNotConnected) ∧
    ScanBatch b s opts = (s, some ScanErr.ErrNotConnected) ∧
    GetButtonState b s name = (s, .error ScanErr.ErrNotConnected) := by
  refine ⟨?_, ?_, ?_⟩
  · simp [SetOptions, hconn]
  · simp [ScanBatch, scanEnter, hconn]
  · simp [GetButtonState, hconn]

/-- Witness of `not_connected_fails`: a new scanner, never opened. -/
theorem not_connected_fails_witness :
    (New "").connected = false ∧
    ScanBatch pressedBackend (New "") oversizeOptions = (New "", some ScanErr.ErrNotConnected) :=
  ⟨rfl, (not_connected_fails pressedBackend (New "") oversizeOptions "scan" rfl).2.1⟩

/-- C16: on a connected scanner whose backend accepts the options "resolution",
"mode" and "source", `SetOptions` with `PageHeight = 0` returns nil, and the
backend calls it makes are exactly: the accepted options that are set, then
`SetOption("page-height", 0)`, then the page width when it is positive. The
built-in profile "oversize" has `PageHeight = 0`, also as the store returns it
and as scan options. -/
theorem SetOptions_unlimited (b : Backend) (s : Scanner) (opts : ScanOptions)
    (hconn : s.connected = true) (hph : opts.PageHeight = 0)
    (hacc : ∀ calls value, b.SetOption calls "resolution" value = none ∧
      b.SetOption calls "mode" value = none ∧ b.SetOption calls "source" value = none) :
    (SetOptions b s opts).2 = none ∧
    (SetOptions b s opts).1.calls
      = s.calls
        ++ (if opts.Resolution > 0 then [Call.SetOption "resolution" (OptVal.int opts.Resolution)]
            else [])
        ++ (if opts.Mode ≠ "" then [Call.SetOption "mode" (OptVal.str opts.Mode)] else [])
        ++ (if opts.Source ≠ "" then [Call.SetOption "source" (OptVal.str opts.Source)] else [])
        ++ [Call.SetOption "page-height" (OptVal.int 0)]
        ++ (if opts.PageWidth > 0 then [Call.SetOption "page-width" (OptVal.float opts.PageWidth)]
            else []) ∧
    defaultOversizeProfile.Scanner.PageHeight = 0 ∧
    NewProfileStore.Get "oversize" = (some defaultOversizeProfile, true) ∧
    (profileScanOptions defaultOversizeProfile).PageHeight = 0 := by
  have h1 := fun calls value => (hacc calls value).1
  have h2 := fun calls value => (hacc calls value).2.1
  have h3 := fun calls value => (hacc calls value).2.2
  refine ⟨?_, ?_, rfl, by simp [NewProfileStore, ProfileStore.Get], rfl⟩
  · by_cases hr : opts.Resolution > 0 <;> by_cases hm : opts.Mode = "" <;>
      by_cases hs : opts.Source = "" <;>
      simp [SetOptions, hconn, hph, backendSet, h1, h2, h3, hr, hm, hs]
  · by_cases hr : opts.Resolution > 0 <;> by_cases hm : opts.Mode = "" <;>
      by_cases hs : opts.Source = "" <;> by_cases hw : opts.PageWidth > 0 <;>
      simp [SetOptions, hconn, hph, backendSet, h1, h2, h3, hr, hm, hs, hw]

/-- Witness of `SetOptions_unlimited`: the open scanner of the tests and the
options of the oversize profile. -/
theorem SetOptions_unlimited_witness :
    openScanner.connected = true ∧ oversizeOptions.PageHeight = 0 ∧
    (SetOptions pressedBackend openScanner oversizeOptions).2 = none :=
  ⟨by simp [openScanner, Scanner.Open, New, pressedBackend], rfl,
   (SetOptions_unlimited pressedBackend openScanner oversizeOptions
      (by simp [openScanner, Scanner.Open, New, pressedBackend]) rfl
      (fun _ _ => ⟨rfl, rfl, rfl⟩)).1⟩

/-! ## Theorems: profile store -/

/-- C17: for every profile store, name `n` and profile `p`, after `Set(n, p)`
the call `Get(n)` returns `(p, true)`, and `Get` of every other name returns
what it returned before the `Set`. -/
theorem ProfileStore_Set_Get (s : ProfileStore) (n : String) (p : ProfilePtr) :
    (s.Set n p).Get n = (p, true) ∧ ∀ m, m ≠ n → (s.Set n p).Get m = s.Get m := by
  refine ⟨by simp [ProfileStore.Set, ProfileStore.Get], ?_⟩
  intro m hm
  simp [ProfileStore.Set, ProfileStore.Get, hm]

/-- Witness of `ProfileStore_Set_Get`: setting "scan" in the built-in store
leaves "standard" as it was. -/
theorem ProfileStore_Set_Get_witness :
    "standard" ≠ "scan" ∧
    (NewProfileStore.Set "scan" none).Get "standard" = NewProfileStore.Get "standard" :=
  ⟨by decide, (ProfileStore_Set_Get NewProfileStore "scan" none).2 "standard" (by decide)⟩

/-! ## Theorems: authentication middleware -/

theorem buildKeySet_true (validKeys : List String) (keySet : String → Bool) (x : String) :
    buildKeySet validKeys keySet x = true ↔ x ∈ validKeys ∨ keySet x = true := by
  induction validKeys generalizing keySet with
  | nil => simp [buildKeySet]
  | cons k rest ih =>
    rw [buildKeySet, ih]
    by_cases hx : x = k
    · simp [hx]
    · simp [hx]

theorem keySet_mem (validKeys : List String) (x : String) :
    buildKeySet validKeys (fun _ => false) x = true ↔ x ∈ validKeys := by
  rw [buildKeySet_true]
  simp

/-- C18: `AuthMiddleware` with keys `K` calls the next handler exactly when the
`Authorization` value starts with "Bearer " and the token after that prefix is
in `K`, or the `X-API-Key` value is in `K`, or the `api_key` query value is in
`K`, each value being what `Get` returns (the empty string for a header or
parameter that is absent); in every other case it answers 401. -/
theorem AuthMiddleware_forwards (K : List String) (r : Request) :
    (AuthMiddleware K r = AuthResult.next ↔
      (HasPrefix (firstValue r.authorization) "Bearer " = true ∧
        TrimPrefix (firstValue r.authorization) "Bearer " ∈ K) ∨
      firstValue r.xApiKey ∈ K ∨ firstValue r.apiKeyQuery ∈ K) ∧
    (AuthMiddleware K r ≠ AuthResult.next ↔ AuthMiddleware K r = AuthResult.unauthorized) := by
  have hb := keySet_mem K (TrimPrefix (firstValue r.authorization) "Bearer ")
  have hx := keySet_mem K (firstValue r.xApiKey)
  have hq := keySet_mem K (firstValue r.apiKeyQuery)
  unfold AuthMiddleware
  simp only []
  by_cases h1 : HasPrefix (firstValue r.authorization) "Bearer " = true <;>
    by_cases h2 : TrimPrefix (firstValue r.authorization) "Bearer " ∈ K <;>
    by_cases h3 : firstValue r.xApiKey ∈ K <;>
    by_cases h4 : firstValue r.apiKeyQuery ∈ K <;>
    simp [h1, h2, h3, h4, hb.mpr, hx.mpr, hq.mpr, hb, hx, hq]

/-- C19, failing input: with the single configured key "" a request without
`Authorization` header, `X-API-Key` header and `api_key` parameter reaches the
next handler; in general such a request is forwarded exactly when the empty
string is one of the configured keys. -/
theorem AuthMiddleware_empty_key :
    AuthMiddleware [""] bareRequest = AuthResult.next ∧
    ∀ K, (AuthMiddleware K bareRequest = AuthResult.next ↔ "" ∈ K) := by
  have hpre : HasPrefix "" "Bearer " = false := by decide
  refine ⟨?_, ?_⟩
  · simp [AuthMiddleware, bareRequest, firstValue, hpre, buildKeySet]
  · intro K
    have hk := keySet_mem K ""
    by_cases h : "" ∈ K
    · simp [AuthMiddleware, bareRequest, firstValue, hpre, hk.mpr h, h]
    · have hf : buildKeySet K (fun _ => false) "" = false := by
        rw [← Bool.not_eq_true, hk]
        exact h
      simp [AuthMiddleware, bareRequest, firstValue, hpre, hf, h]

/-! ## Theorems: job queue -/

/-- C20: `Submit` of a job whose id is already registered returns an error and
leaves the queue (job map, pending channel) as it was; after a `Submit` that
returns nil, `Get(job.ID)` returns `(job, true)` and the pending channel is the
one before with the job appended as its last element. -/
theorem Submit_registers (q : Queue) (job : QJob) :
    ((q.jobs job.ID).isSome = true →
      (q.Submit job).2 = some ("job " ++ job.ID ++ " already exists") ∧ (q.Submit job).1 = q) ∧
    ((q.Submit job).2 = none →
      (q.Submit job).1.Get job.ID = (some job, true) ∧
      (q.Submit job).1.pending = q.pending ++ [job] ∧
      (q.Submit job).1.pending.getLast? = some job) := by
  constructor
  · intro h
    simp [Queue.Submit, h]
  · intro h
    unfold Queue.Submit at h ⊢
    by_cases hd : (q.jobs job.ID).isSome = true
    · simp [hd] at h
    · by_cases hl : q.pending.length < 100
      · simp [hd, hl, Queue.Get]
      · simp [hd, hl] at h

/-- Witness of `Submit_registers`: a first `Submit` to a new queue returns nil,
and a second `Submit` of the same job finds its id registered. -/
theorem Submit_registers_witness :
    (NewQueue.Submit { addr := 1, ID := "a" }).2 = none ∧
    (NewQueue.Submit { addr := 1, ID := "a" }).1.Get "a" = (some { addr := 1, ID := "a" }, true) ∧
    (((NewQueue.Submit { addr := 1, ID := "a" }).1.jobs "a").isSome = true) ∧
    ((NewQueue.Submit { addr := 1, ID := "a" }).1.Submit { addr := 1, ID := "a" }).2
      = some ("job " ++ "a" ++ " already exists") :=
  have h1 : (NewQueue.Submit { addr := 1, ID := "a" }).2 = none := by
    simp [Queue.Submit, NewQueue]
  have h2 : ((NewQueue.Submit { addr := 1, ID := "a" }).1.jobs "a").isSome = true := by
    simp [Queue.Submit, NewQueue]
  ⟨h1, ((Submit_registers NewQueue { addr := 1, ID := "a" }).2 h1).1, h2,
   ((Submit_registers (NewQueue.Submit { addr := 1, ID := "a" }).1 { addr := 1, ID := "a" }).1
      h2).1⟩

/-! ## Theorems: processing pipeline -/

theorem optimizeStage_no_ocr (env : ProcessEnv) (profile : Profile) (imagePaths : List String)
    (i o l t : String) :
    PipelineCall.runOCR i o l t ∉ (optimizeStage env profile imagePaths).1 := by
  unfold optimizeStage
  by_cases h0 : profile.Processing.OptimizeImages = true <;>
    by_cases h1 : profile.Processing.Deskew = true <;>
    by_cases h2 : profile.Processing.RemoveBlankPages = true <;>
    simp [h0, h1, h2]

theorem documentStage_no_ocr (env : ProcessEnv) (job : JobRecord) (pdfPath : String)
    (i o l t : String) :
    PipelineCall.runOCR i o l t ∉ (documentStage env job pdfPath).1 := by
  unfold documentStage
  cases env.Open pdfPath with
  | some e => simp
  | none =>
    cases env.Stat pdfPath with
    | error e => simp
    | ok size => simp

theorem ocrStage_calls (p : Pipeline) (env : ProcessEnv) (profile : Profile)
    (jobDir pdfPath : String) (i o l t : String) :
    PipelineCall.runOCR i o l t ∈ (ocrStage p env profile jobDir pdfPath).1 ↔
      (p.ocrEnabled = true ∨ profile.Processing.OCR.Enabled = true) ∧
      i = pdfPath ∧ o = env.Join jobDir "output_ocr.pdf" ∧
      l = (if profile.Processing.OCR.Language ≠ "" then profile.Processing.OCR.Language
           else p.ocrLanguage) ∧
      t = p.ocrPath := by
  unfold ocrStage
  by_cases h0 : profile.Processing.OCR.Enabled = true <;>
    by_cases h1 : p.ocrEnabled = true <;> simp [h0, h1]

theorem reachesOCR_iff (p : Pipeline) (env : ProcessEnv) (job : JobRecord) (profile : Profile) :
    reachesOCR p env job profile = true ↔
      env.MkdirAll (env.Join p.tempDir job.ID) = none ∧
      ∃ imagePaths, env.saveImages (env.Join p.tempDir job.ID) = .ok imagePaths ∧
        (optimizeStage env profile imagePaths).2 ≠ [] ∧
        env.createPDF (optimizeStage env profile imagePaths).2
          (env.Join (env.Join p.tempDir job.ID) "output.pdf") = none := by
  unfold reachesOCR
  cases hdir : env.MkdirAll (env.Join p.tempDir job.ID) with
  | some e => simp
  | none =>
    cases hsave : env.saveImages (env.Join p.tempDir job.ID) with
    | error e => simp
    | ok imagePaths =>
      by_cases hlen : (optimizeStage env profile imagePaths).2.length = 0
      · have hnil := List.length_eq_zero.mp hlen
        simp [hlen, hnil]
      · have hne : (optimizeStage env profile imagePaths).2 ≠ [] :=
          fun h => hlen (List.length_eq_zero.mpr h)
        cases hpdf : env.createPDF (optimizeStage env profile imagePaths).2
            (env.Join (env.Join p.tempDir job.ID) "output.pdf") with
        | some e => simp [hlen, hpdf]
        | none => simp [hlen, hpdf, hne]

theorem Process_runOCR_iff (p : Pipeline) (env : ProcessEnv) (job : JobRecord)
    (profile : Profile) (i o l t : String) :
    PipelineCall.runOCR i o l t ∈ (Process p env job profile).1 ↔
      reachesOCR p env job profile = true ∧
      (p.ocrEnabled = true ∨ profile.Processing.OCR.Enabled = true) ∧
      i = env.Join (env.Join p.tempDir job.ID) "output.pdf" ∧
      o = env.Join (env.Join p.tempDir job.ID) "output_ocr.pdf" ∧
      l = (if profile.Processing.OCR.Language ≠ "" then profile.Processing.OCR.Language
           else p.ocrLanguage) ∧
      t = p.ocrPath := by
  unfold Process reachesOCR
  simp only []
  cases hdir : env.MkdirAll (env.Join p.tempDir job.ID) with
  | some e => simp
  | none =>
    cases hsave : env.saveImages (env.Join p.tempDir job.ID) with
    | error e => simp
    | ok imagePaths =>
      have h1 := optimizeStage_no_ocr env profile imagePaths i o l t
      by_cases hlen : (optimizeStage env profile imagePaths).2.length = 0
      · simp [hlen, h1]
      · cases hpdf : env.createPDF (optimizeStage env profile imagePaths).2
            (env.Join (env.Join p.tempDir job.ID) "output.pdf") with
        | some e => simp [hlen, h1, hpdf]
        | none =>
          have h2 := documentStage_no_ocr env job (ocrStage p env profile
            (env.Join p.tempDir job.ID)
            (env.Join (env.Join p.tempDir job.ID) "output.pdf")).2 i o l t
          have h3 := ocrStage_calls p env profile (env.Join p.tempDir job.ID)
            (env.Join (env.Join p.tempDir job.ID) "output.pdf") i o l t
          simp only [hlen, hpdf, if_false, List.mem_append, List.mem_cons, List.mem_singleton,
            List.not_mem_nil, reduceCtorEq, false_or, or_false, h1, h2, h3, true_and]

/-- C21, failing input: the standard profile asks for blank-page removal and
the saved page cannot be loaded again. `removeBlankPages` returns an error, its
nil result replaces the list of images, and `Process` fails with "no pages
remaining after processing" without creating a PDF. -/
theorem Process_blank_removal_error :
    removeBlankPages unreadableEnv.loadImage
      [cleanJoin (cleanJoin "/tmp/scanflow" "job-1") "page_0001.png"] (99 / 100) = none ∧
    (Process defaultPipeline unreadableEnv plainJob defaultStandardProfile).2
      = .error "no pages remaining after processing" ∧
    ∀ imagePaths pdfPath, PipelineCall.createPDF imagePaths pdfPath
      ∉ (Process defaultPipeline unreadableEnv plainJob defaultStandardProfile).1 := by
  have hrm : removeBlankPages unreadableEnv.loadImage
      [cleanJoin (cleanJoin "/tmp/scanflow" "job-1") "page_0001.png"] (99 / 100) = none := by
    simp [removeBlankPages, unreadableEnv]
  have hopt : optimizeStage unreadableEnv defaultStandardProfile
      [cleanJoin (cleanJoin "/tmp/scanflow" "job-1") "page_0001.png"]
      = ([PipelineCall.SendProgress (stageUpdate 20 "Optimizing images..."),
          PipelineCall.deskewImages
            [cleanJoin (cleanJoin "/tmp/scanflow" "job-1") "page_0001.png"],
          PipelineCall.removeBlankPages
            [cleanJoin (cleanJoin "/tmp/scanflow" "job-1") "page_0001.png"] (99 / 100)],
         []) := by
    simp only [optimizeStage, defaultStandardProfile, deskewImages, hrm, if_true]
    rfl
  have hp : Process defaultPipeline unreadableEnv plainJob defaultStandardProfile
      = ([PipelineCall.MkdirAll (cleanJoin "/tmp/scanflow" "job-1"),
          PipelineCall.SendProgress (stageUpdate 10 "Saving scanned images..."),
          PipelineCall.saveImages (cleanJoin "/tmp/scanflow" "job-1")]
         ++ [PipelineCall.SendProgress (stageUpdate 20 "Optimizing images..."),
          PipelineCall.deskewImages
            [cleanJoin (cleanJoin "/tmp/scanflow" "job-1") "page_0001.png"],
          PipelineCall.removeBlankPages
            [cleanJoin (cleanJoin "/tmp/scanflow" "job-1") "page_0001.png"] (99 / 100)]
         ++ [PipelineCall.RemoveAll (cleanJoin "/tmp/scanflow" "job-1")],
         .error "no pages remaining after processing") := by
    simp only [Process, defaultPipeline, plainJob, NewJobRecord, unreadableEnv, okEnv]
    simp only [unreadableEnv, okEnv] at hopt
    rw [hopt]
    rfl
  refine ⟨hrm, by rw [hp], ?_⟩
  intro imagePaths pdfPath
  rw [hp]
  simp

/-- C22, counterexample: OCR is enabled in the pipeline and in the profile, but
`createPDF` fails: `Process` returns its error and never calls the OCR tool. -/
theorem Process_pdf_error_no_ocr :
    defaultPipeline.ocrEnabled = true ∧
    defaultOversizeProfile.Processing.OCR.Enabled = true ∧
    (Process defaultPipeline pdfFailEnv plainJob defaultOversizeProfile).2
      = .error "create PDF: exit status 1" ∧
    ∀ i o l t, PipelineCall.runOCR i o l t
      ∉ (Process defaultPipeline pdfFailEnv plainJob defaultOversizeProfile).1 := by
  refine ⟨rfl, rfl, rfl, ?_⟩
  intro i o l t h
  have hr := ((Process_runOCR_iff defaultPipeline pdfFailEnv plainJob defaultOversizeProfile
    i o l t).mp h).1
  exact absurd hr (by decide)

/-- C22, amended: `Process` calls the OCR tool if and only if it arrives at the
OCR step (the directory was made, the images were saved, at least one image is
left after step 2, and the PDF was created) and OCR is enabled in the profile or
in the pipeline; the call is made on the PDF just created, and the language
passed is the language of the profile when that is not empty and the language
of the pipeline otherwise. -/
theorem Process_ocr_iff (p : Pipeline) (env : ProcessEnv) (job : JobRecord) (profile : Profile) :
    ((∃ i o l t, PipelineCall.runOCR i o l t ∈ (Process p env job profile).1) ↔
      reachesOCR p env job profile = true ∧
      (p.ocrEnabled = true ∨ profile.Processing.OCR.Enabled = true)) ∧
    (reachesOCR p env job profile = true ↔
      env.MkdirAll (env.Join p.tempDir job.ID) = none ∧
      ∃ imagePaths, env.saveImages (env.Join p.tempDir job.ID) = .ok imagePaths ∧
        (optimizeStage env profile imagePaths).2 ≠ [] ∧
        env.createPDF (optimizeStage env profile imagePaths).2
          (env.Join (env.Join p.tempDir job.ID) "output.pdf") = none) ∧
    (∀ i o l t, PipelineCall.runOCR i o l t ∈ (Process p env job profile).1 →
      i = env.Join (env.Join p.tempDir job.ID) "output.pdf" ∧
      l = (if profile.Processing.OCR.Language ≠ "" then profile.Processing.OCR.Language
           else p.ocrLanguage) ∧
      t = p.ocrPath) := by
  refine ⟨?_, reachesOCR_iff p env job profile, ?_⟩
  · constructor
    · rintro ⟨i, o, l, t, h⟩
      have h1 := (Process_runOCR_iff p env job profile i o l t).mp h
      exact ⟨h1.1, h1.2.1⟩
    · rintro ⟨hr, hen⟩
      exact ⟨_, _, _, _, (Process_runOCR_iff p env job profile _ _ _ _).mpr
        ⟨hr, hen, rfl, rfl, rfl, rfl⟩⟩
  · intro i o l t h
    have h1 := (Process_runOCR_iff p env job profile i o l t).mp h
    exact ⟨h1.2.2.1, h1.2.2.2.2.1, h1.2.2.2.2.2⟩

/-- Witness of `Process_ocr_iff`: the oversize profile (OCR enabled, language
"deu") in the default pipeline, every call succeeding: the OCR tool is called,
on the PDF just created and with the language "deu". -/
theorem Process_ocr_iff_witness :
    (∃ i o l t, PipelineCall.runOCR i o l t
      ∈ (Process defaultPipeline okEnv plainJob defaultOversizeProfile).1) ∧
    PipelineCall.runOCR "/tmp/scanflow/job-1/output.pdf" "/tmp/scanflow/job-1/output_ocr.pdf"
      "deu" "/usr/bin/tesseract"
      ∈ (Process defaultPipeline okEnv plainJob defaultOversizeProfile).1 :=
  ⟨(Process_ocr_iff defaultPipeline okEnv plainJob defaultOversizeProfile).1.mpr
     ⟨by decide, Or.inl rfl⟩,
   (Process_runOCR_iff defaultPipeline okEnv plainJob defaultOversizeProfile _ _ _ _).mpr
     ⟨by decide, Or.inl rfl, by decide, by decide, by decide, rfl⟩⟩

/-- C23, counterexample: the photo profile has OCR disabled, the default
pipeline has it enabled, every call succeeds, and `Process` runs the OCR tool
(with the language of the pipeline). -/
theorem Process_photo_runs_ocr :
    defaultPhotoProfile.Processing.OCR.Enabled = false ∧ defaultPipeline.ocrEnabled = true ∧
    PipelineCall.runOCR (cleanJoin (cleanJoin "/tmp/scanflow" "job-1") "output.pdf")
      (cleanJoin (cleanJoin "/tmp/scanflow" "job-1") "output_ocr.pdf") "deu+eng"
      "/usr/bin/tesseract"
      ∈ (Process defaultPipeline okEnv plainJob defaultPhotoProfile).1 :=
  ⟨rfl, rfl, (Process_runOCR_iff defaultPipeline okEnv plainJob defaultPhotoProfile _ _ _ _).mpr
    ⟨by decide, Or.inl rfl, rfl, rfl, rfl, rfl⟩⟩

/-- C23, amended: when the OCR setting of the profile and the one of the
pipeline disagree, the one that enables OCR wins: `Process` calls the OCR tool
exactly when it arrives at the OCR step (the directory was made, the images
were saved, at least one image is left after step 2, and the PDF was created),
whichever of the two settings is the enabled one, and with the language of the
profile when that is not empty and the language of the pipeline otherwise. -/
theorem Process_ocr_disagree (p : Pipeline) (env : ProcessEnv) (job : JobRecord)
    (profile : Profile) (hne : p.ocrEnabled ≠ profile.Processing.OCR.Enabled) :
    (PipelineCall.runOCR (env.Join (env.Join p.tempDir job.ID) "output.pdf")
        (env.Join (env.Join p.tempDir job.ID) "output_ocr.pdf")
        (if profile.Processing.OCR.Language ≠ "" then profile.Processing.OCR.Language
         else p.ocrLanguage) p.ocrPath ∈ (Process p env job profile).1 ↔
      env.MkdirAll (env.Join p.tempDir job.ID) = none ∧
      ∃ imagePaths, env.saveImages (env.Join p.tempDir job.ID) = .ok imagePaths ∧
        (optimizeStage env profile imagePaths).2 ≠ [] ∧
        env.createPDF (optimizeStage env profile imagePaths).2
          (env.Join (env.Join p.tempDir job.ID) "output.pdf") = none) ∧
    ((∃ i o l t, PipelineCall.runOCR i o l t ∈ (Process p env job profile).1) ↔
      reachesOCR p env job profile = true) := by
  have hen : p.ocrEnabled = true ∨ profile.Processing.OCR.Enabled = true := by
    cases h1 : p.ocrEnabled <;> cases h2 : profile.Processing.OCR.Enabled <;> simp_all
  constructor
  · rw [Process_runOCR_iff, reachesOCR_iff]
    constructor
    · intro h
      exact h.1
    · intro h
      exact ⟨h, hen, rfl, rfl, rfl, rfl⟩
  · constructor
    · rintro ⟨i, o, l, t, h⟩
      exact ((Process_runOCR_iff p env job profile i o l t).mp h).1
    · intro hr
      exact ⟨_, _, _, _, (Process_runOCR_iff p env job profile _ _ _ _).mpr
        ⟨hr, hen, rfl, rfl, rfl, rfl⟩⟩

/-- Witness of `Process_ocr_disagree`: OCR off in the pipeline and on in the
oversize profile, every call succeeding: the OCR tool is called. -/
theorem Process_ocr_disagree_witness :
    quietPipeline.ocrEnabled ≠ defaultOversizeProfile.Processing.OCR.Enabled ∧
    ∃ i o l t, PipelineCall.runOCR i o l t
      ∈ (Process quietPipeline okEnv plainJob defaultOversizeProfile).1 :=
  ⟨by decide,
   (Process_ocr_disagree quietPipeline okEnv plainJob defaultOversizeProfile (by decide)).2.mpr
     (by decide)⟩

/-- C30: `Process` never reads the per-job OCR override: for every pipeline,
environment and profile, two jobs that differ only in `OcrEnabled` give the
same calls, among them the same calls of the OCR tool, and the same result. -/
theorem Process_ignores_override (p : Pipeline) (env : ProcessEnv) (job : JobRecord)
    (profile : Profile) (o : Option Bool) :
    Process p env { job with OcrEnabled := o } profile = Process p env job profile ∧
    ∀ i l out t,
      (PipelineCall.runOCR i out l t ∈ (Process p env { job with OcrEnabled := o } profile).1
        ↔ PipelineCall.runOCR i out l t ∈ (Process p env job profile).1) := by
  have h : Process p env { job with OcrEnabled := o } profile = Process p env job profile := rfl
  exact ⟨h, fun i l out t => by rw [h]⟩

theorem digit_allowed : ∀ d, d < 10 → inAllowedSet (d + '0'.toNat) = true := by decide

theorem appendInt_allowed (x width : Nat) : ∀ c ∈ appendInt x width, inAllowedSet c = true := by
  intro c hc
  unfold appendInt at hc
  by_cases hx : x = 0
  · simp only [hx, if_true, List.mem_append, List.mem_replicate, List.mem_singleton] at hc
    rcases hc with ⟨_, rfl⟩ | rfl
    · exact digit_allowed 0 (by decide)
    · exact digit_allowed 0 (by decide)
  · simp only [hx, if_false, List.mem_append, List.mem_replicate, List.mem_map,
      List.mem_reverse] at hc
    rcases hc with ⟨_, rfl⟩ | ⟨d, hd, rfl⟩
    · exact digit_allowed 0 (by decide)
    · exact digit_allowed d (Nat.digits_lt_base (by decide) hd)

theorem formatTimestamp_allowed (t : Time) : ∀ c ∈ formatTimestamp t, inAllowedSet c = true := by
  intro c hc
  simp only [formatTimestamp, List.mem_append, List.mem_singleton] at hc
  rcases hc with (((((h | h) | h) | h) | h) | h) | h
  · exact appendInt_allowed _ _ c h
  · exact appendInt_allowed _ _ c h
  · exact appendInt_allowed _ _ c h
  · rw [h]; decide
  · exact appendInt_allowed _ _ c h
  · exact appendInt_allowed _ _ c h
  · exact appendInt_allowed _ _ c h

theorem digits_one (x : Nat) (h0 : 0 < x) (h : x < 10) : Nat.digits 10 x = [x] :=
  Nat.digits_of_lt 10 x (by omega) h

theorem digits_two (x : Nat) (h0 : 10 ≤ x) (h : x < 100) :
    Nat.digits 10 x = [x % 10, x / 10] := by
  rw [Nat.digits_def' (by decide) (by omega), digits_one (x / 10) (by omega) (by omega)]

theorem digits_three (x : Nat) (h0 : 100 ≤ x) (h : x < 1000) :
    Nat.digits 10 x = [x % 10, x / 10 % 10, x / 10 / 10] := by
  rw [Nat.digits_def' (by decide) (by omega), digits_two (x / 10) (by omega) (by omega)]

theorem digits_four (x : Nat) (h0 : 1000 ≤ x) (h : x < 10000) :
    Nat.digits 10 x = [x % 10, x / 10 % 10, x / 10 / 10 % 10, x / 10 / 10 / 10] := by
  rw [Nat.digits_def' (by decide) (by omega), digits_three (x / 10) (by omega) (by omega)]

theorem appendInt_two (x : Nat) (h : x < 100) : appendInt x 2 = twoDigits x := by
  unfold appendInt twoDigits
  by_cases h0 : x = 0
  · subst h0; rfl
  · by_cases h1 : x < 10
    · simp only [h0, if_false, digits_one x (by omega) h1]
      have e1 : x / 10 = 0 := by omega
      have e2 : x % 10 = x := by omega
      simp [e1, e2, Nat.add_comm]
    · simp only [h0, if_false, digits_two x (by omega) h]
      simp [Nat.add_comm]

theorem appendInt_four (x : Nat) (h : x < 10000) : appendInt x 4 = fourDigits x := by
  unfold appendInt fourDigits
  by_cases h0 : x = 0
  · subst h0; rfl
  · by_cases h1 : x < 10
    · simp only [h0, if_false, digits_one x (by omega) h1]
      have e1 : x / 1000 = 0 := by omega
      have e2 : x / 100 % 10 = 0 := by omega
      have e3 : x / 10 % 10 = 0 := by omega
      have e4 : x % 10 = x := by omega
      simp [e1, e2, e3, e4, Nat.add_comm, List.replicate]
    · by_cases h2 : x < 100
      · simp only [h0, if_false, digits_two x (by omega) h2]
        have e1 : x / 1000 = 0 := by omega
        have e2 : x / 100 % 10 = 0 := by omega
        have e3 : x / 10 % 10 = x / 10 := by omega
        simp [e1, e2, e3, Nat.add_comm, List.replicate]
      · by_cases h3 : x < 1000
        · simp only [h0, if_false, digits_three x (by omega) h3]
          have e1 : x / 1000 = 0 := by omega
          have e2 : x / 100 % 10 = x / 10 / 10 := by omega
          simp [e1, e2, Nat.add_comm, List.replicate]
        · simp only [h0, if_false, digits_four x (by omega) h]
          have e1 : x / 1000 = x / 10 / 10 / 10 := by omega
          have e2 : x / 100 % 10 = x / 10 / 10 % 10 := by omega
          simp [e1, e2, Nat.add_comm]
theorem formatTimestamp_eq_spec (t : Time) (hY : t.Year ≤ 9999) (hM : t.Month ≤ 12)
    (hD : t.Day ≤ 31) (hh : t.Hour ≤ 23) (hm : t.Minute ≤ 59) (hs : t.Second ≤ 59) :
    formatTimestamp t = timestampSpec t := by
  unfold formatTimestamp timestampSpec
  rw [appendInt_four t.Year (by omega), appendInt_two t.Month (by omega),
    appendInt_two t.Day (by omega), appendInt_two t.Hour (by omega),
    appendInt_two t.Minute (by omega), appendInt_two t.Second (by omega)]

/-- C24: for every job and every clock reading `t` with a four-digit year (month,
day, hour, minute and second in their calendar ranges), `generateFilename`
returns `T ++ "_" ++ YYYYMMDD_HHMMSS ++ ".pdf"`: `T` is the sanitized title (in
the words of the specification: spaces to underscores, other bytes outside
`[A-Za-z0-9._-]` dropped, "document" if nothing is left) when the job has
metadata with a non-empty title, and "scan" otherwise; the timestamp is the
fifteen characters made of the four digits of the year, two digits each of
month and day, an underscore, and two digits each of hour, minute and second.
Every byte of the name is in `[A-Za-z0-9._-]`. -/
theorem generateFilename_spec (job : JobRecord) (t : Time)
    (hY : t.Year ≤ 9999) (hM : 1 ≤ t.Month ∧ t.Month ≤ 12) (hD : 1 ≤ t.Day ∧ t.Day ≤ 31)
    (hh : t.Hour ≤ 23) (hm : t.Minute ≤ 59) (hs : t.Second ≤ 59) :
    generateFilename job t
      = (match job.Metadata with
         | some m => if m.Title = [] then scan else sanitizeSpec m.Title
         | none => scan)
        ++ ['_'.toNat]
        ++ ['0'.toNat + t.Year / 1000, '0'.toNat + t.Year / 100 % 10,
            '0'.toNat + t.Year / 10 % 10, '0'.toNat + t.Year % 10,
            '0'.toNat + t.Month / 10, '0'.toNat + t.Month % 10,
            '0'.toNat + t.Day / 10, '0'.toNat + t.Day % 10,
            '_'.toNat,
            '0'.toNat + t.Hour / 10, '0'.toNat + t.Hour % 10,
            '0'.toNat + t.Minute / 10, '0'.toNat + t.Minute % 10,
            '0'.toNat + t.Second / 10, '0'.toNat + t.Second % 10]
        ++ ['.', 'p', 'd', 'f'].map Char.toNat ∧
    formatTimestamp t = timestampSpec t ∧
    (timestampSpec t).length = 15 ∧
    ∀ c ∈ generateFilename job t, inAllowedSet c = true := by
  have hscan : ∀ c ∈ scan, inAllowedSet c = true := by decide
  have hpdf : ∀ c ∈ ['.', 'p', 'd', 'f'].map Char.toNat, inAllowedSet c = true := by decide
  have hts := formatTimestamp_eq_spec t hY hM.2 hD.2 hh hm hs
  have htitle : ∀ c ∈ (match job.Metadata with
      | some m => if m.Title ≠ [] then sanitizeFilename m.Title else scan
      | none => scan), inAllowedSet c = true := by
    cases job.Metadata with
    | none => exact hscan
    | some m =>
      by_cases hm : m.Title = []
      · simpa [hm] using hscan
      · simpa [hm] using (sanitizeFilename_allowed m.Title).2
  refine ⟨?_, hts, rfl, ?_⟩
  · unfold generateFilename
    rw [hts]
    cases job.Metadata with
    | none => rfl
    | some m =>
      by_cases hm : m.Title = []
      · simp [hm, timestampSpec, twoDigits, fourDigits]
      · simp [hm, sanitizeFilename_eq_spec, timestampSpec, twoDigits, fourDigits]
  · intro c hc
    simp only [generateFilename, List.mem_append, List.mem_singleton] at hc
    rcases hc with ((h | h) | h) | h
    · exact htitle c h
    · rw [h]; decide
    · exact formatTimestamp_allowed t c h
    · exact hpdf c h

/-- Witness of `generateFilename_spec`: a job without metadata at 14:05:07 on
9 March 2024 is named "scan_20240309_140507.pdf". -/
theorem generateFilename_spec_witness :
    generateFilename plainJob okEnv.now
      = "scan_20240309_140507.pdf".toList.map Char.toNat :=
  (generateFilename_spec plainJob okEnv.now (by decide) (by decide) (by decide) (by decide)
    (by decide) (by decide)).1.trans (by decide)

/-! ## Theorems: Paperless upload -/

/-- C25, counterexample: the server answers the upload with 201 Created and
`Send` returns the error "paperless error 201: ". -/
theorem Send_created_is_error :
    localPaperless.Send (answering 201) = some "paperless error 201: " := by decide

/-- C25, amended: `PaperlessHandler.Send` returns nil exactly when the form file
is created, the document copied, the request built and sent, and the response
has the status 200; a response with any other status, 2xx or not, gives the
error "paperless error <status>: <body>". -/
theorem Send_nil_iff (h : PaperlessHandler) (env : UploadEnv) :
    (h.Send env = none ↔
      env.CreateFormFile = none ∧ env.Copy = none ∧ env.NewRequest = none ∧
      ∃ resp, env.Do (h.baseURL ++ "/api/documents/post_document/") ("Token " ++ h.token)
        = .ok resp ∧ resp.StatusCode = 200) ∧
    (∀ code body, code ≠ 200 →
      h.Send { CreateFormFile := none, Copy := none, NewRequest := none,
               Do := fun _ _ => .ok { StatusCode := code, Body := body } }
        = some ("paperless error " ++ toString code ++ ": " ++ body)) := by
  constructor
  · unfold PaperlessHandler.Send
    cases env.CreateFormFile with
    | some e => simp
    | none =>
      cases env.Copy with
      | some e => simp
      | none =>
        cases env.NewRequest with
        | some e => simp
        | none =>
          cases env.Do (h.baseURL ++ "/api/documents/post_document/") ("Token " ++ h.token) with
          | error e => simp
          | ok resp => simp
  · intro code body hcode
    simp [PaperlessHandler.Send, hcode]

/-- Witness of `Send_nil_iff`: a response with status 204 No Content. -/
theorem Send_nil_iff_witness :
    localPaperless.Send { CreateFormFile := none, Copy := none, NewRequest := none,
                          Do := fun _ _ => .ok { StatusCode := 204, Body := "" } }
      = some ("paperless error " ++ toString (204 : Int) ++ ": " ++ "") :=
  (Send_nil_iff localPaperless (answering 200)).2 204 "" (by decide)

/-! ## Theorems: progress channel -/

/-- C27: on a job whose progress channel has the capacity 100 that `NewJob`
gives it, `SendProgress(u)` appends `u`, with `JobID` set to the job's ID, when
fewer than 100 updates are buffered, and returns with the job unchanged when
100 are buffered; in both cases every field of the job but the buffer is what
it was, and the buffer never holds more than 100 updates. -/
theorem SendProgress_buffer (j : JobRecord) (u : ProgressUpdate) (hcap : j.progress.cap = 100) :
    (j.progress.buf.length < 100 →
      (SendProgress j u).progress.buf = j.progress.buf ++ [{ u with JobID := j.ID }]) ∧
    (j.progress.buf.length = 100 → SendProgress j u = j) ∧
    (j.progress.buf.length ≤ 100 → (SendProgress j u).progress.buf.length ≤ 100) ∧
    SendProgress j u = { j with progress := (SendProgress j u).progress } ∧
    (SendProgress j u).progress.cap = 100 ∧
    (NewJobRecord j.ID j.CreatedAt j.Profile j.Output j.Metadata j.OcrEnabled).progress
      = { cap := 100, buf := [] } := by
  unfold SendProgress
  simp only [hcap]
  refine ⟨?_, ?_, ?_, ?_, ?_, rfl⟩
  · intro h
    simp [h]
  · intro h
    simp [h]
  · intro h
    by_cases hl : j.progress.buf.length < 100
    · simp only [hl, if_true, List.length_append, List.length_singleton]
      omega
    · simpa [hl] using h
  · by_cases hl : j.progress.buf.length < 100 <;> simp [hl]
  · by_cases hl : j.progress.buf.length < 100 <;> simp [hl, hcap]

/-- Witness of `SendProgress_buffer`: the first update of a new job. -/
theorem SendProgress_buffer_witness :
    plainJob.progress.cap = 100 ∧ plainJob.progress.buf.length < 100 ∧
    (SendProgress plainJob (stageUpdate 10 "Saving scanned images...")).progress.buf
      = plainJob.progress.buf
        ++ [{ stageUpdate 10 "Saving scanned images..." with JobID := plainJob.ID }] :=
  ⟨rfl, by decide,
   (SendProgress_buffer plainJob (stageUpdate 10 "Saving scanned images...") rfl).1 (by decide)⟩

/-! ## Theorems: a full queue -/

theorem fullQueue_late : fullQueue.jobs lateJob.ID = none := by
  show fullJobs.find? (fun j => j.ID = "late") = none
  rw [List.find?_eq_none]
  intro j hj
  simp only [fullJobs, List.mem_map, List.mem_range] at hj
  obtain ⟨i, _, rfl⟩ := hj
  simp [String.ext_iff, List.replicate_succ]

/-- C29, failing input: `Submit` of a new job to a queue whose pending channel
holds 100 jobs returns "job queue is full", yet the job was stored in the job
map before the send was tried: `Get` of its id, which found nothing before the
call, returns `(job, true)` after it, and the progress forwarder was started. -/
theorem Submit_full_keeps_job (q : Queue) (job : QJob)
    (hnew : q.jobs job.ID = none) (hfull : q.pending.length = 100) :
    (q.Submit job).2 = some "job queue is full" ∧
    q.Get job.ID = (none, false) ∧
    (q.Submit job).1.Get job.ID = (some job, true) ∧
    (q.Submit job).1.pending = q.pending ∧
    (q.Submit job).1.forwarding = q.forwarding ++ [job] := by
  simp [Queue.Submit, Queue.Get, hnew, hfull]

/-- Witness of `Submit_full_keeps_job`: the queue of one hundred waiting jobs. -/
theorem Submit_full_keeps_job_witness :
    fullQueue.jobs lateJob.ID = none ∧ fullQueue.pending.length = 100 ∧
    (fullQueue.Submit lateJob).2 = some "job queue is full" ∧
    (fullQueue.Submit lateJob).1.Get "late" = (some lateJob, true) :=
  have hlen : fullQueue.pending.length = 100 := by simp [fullQueue, fullJobs]
  ⟨fullQueue_late, hlen, (Submit_full_keeps_job fullQueue lateJob fullQueue_late hlen).1,
   (Submit_full_keeps_job fullQueue lateJob fullQueue_late hlen).2.2.1⟩

/-! ## Theorems: outcome of the worker -/

theorem addScanned_cur (clock : Nat → Int) (pages : List Ptr) (r : Run) :
    (addScanned clock r pages).cur.job.Pages
      = r.cur.job.Pages ++ pages.filter (fun p => !(r.cur.heap p).hasErr) ∧
    (addScanned clock r pages).cur.job.Status = r.cur.job.Status ∧
    (addScanned clock r pages).cur.heap = r.cur.heap ∧
    ∀ st ∈ (addScanned clock r pages).statuses, st ∈ r.statuses ∨ st = r.cur.job.Status := by
  induction pages generalizing r with
  | nil => exact ⟨by simp [addScanned], rfl, rfl, fun st h => Or.inl h⟩
  | cons p rest ih =>
    have hstep : addScanned clock r (p :: rest)
        = addScanned clock (if (r.cur.heap p).hasErr then r
            else Run.call clock r (fun s now => AddPage s p now)) rest := rfl
    rw [hstep]
    by_cases hp : (r.cur.heap p).hasErr = true
    · rw [if_pos hp]
      obtain ⟨h1, h2, h3, h4⟩ := ih r
      exact ⟨by rw [h1]; simp [hp], h2, h3, h4⟩
    · rw [if_neg hp]
      obtain ⟨h1, h2, h3, h4⟩ := ih (Run.call clock r (fun s now => AddPage s p now))
      refine ⟨?_, h2, h3, ?_⟩
      · rw [h1]
        simp [Run.call, AddPage, hp]
      · intro st hst
        rcases h4 st hst with h5 | h5
        · rw [call_statuses] at h5
          rcases List.mem_append.mp h5 with h6 | h6
          · exact Or.inl h6
          · exact Or.inr (List.mem_singleton.mp h6)
        · exact Or.inr h5

theorem failed_message (pre e : String) (hpre : pre.length ≠ 0) : pre ++ e ≠ "" := by
  intro h
  have := congrArg String.length h
  simp at this
  exact hpre this.1

theorem mem_call (clock : Nat → Int) (r : Run) (f : JobState → Int → JobState)
    (st : JobStatus) (h : st ∈ (Run.call clock r f).statuses) :
    st ∈ r.statuses ∨ st = (f r.cur (clock r.ticks)).job.Status := by
  rw [call_statuses] at h
  rcases List.mem_append.mp h with h1 | h1
  · exact Or.inl h1
  · exact Or.inr (List.mem_singleton.mp h1)

theorem scanned_pages (clock : Nat → Int) (env : WorkerEnv) (s : JobState) :
    (addScanned clock (Run.call clock (Run.call clock (Run.start s) (fun s _ => SetCancel s))
      (fun s now => SetStatus s StatusScanning now)) env.scanned).cur.job.Pages
      = s.job.Pages ++ env.scanned.filter (fun p => !(s.heap p).hasErr) ∧
    ∀ st ∈ (addScanned clock (Run.call clock (Run.call clock (Run.start s)
      (fun s _ => SetCancel s)) (fun s now => SetStatus s StatusScanning now))
      env.scanned).statuses, st = s.job.Status ∨ st = StatusScanning := by
  obtain ⟨h1, _, _, h4⟩ := addScanned_cur clock env.scanned
    (Run.call clock (Run.call clock (Run.start s) (fun s _ => SetCancel s))
      (fun s now => SetStatus s StatusScanning now))
  refine ⟨by rw [h1]; rfl, ?_⟩
  intro st hst
  rcases h4 st hst with h5 | h5
  · rcases mem_call clock _ _ st h5 with h6 | h6
    · rcases mem_call clock _ _ st h6 with h7 | h7
      · simp [Run.start, Run.statuses] at h7
      · exact Or.inl h7
    · exact Or.inr h6
  · exact Or.inr h5

theorem processJob_statuses (env : WorkerEnv) (clock : Nat → Int) (s : JobState) :
    ∀ st ∈ (processJob env clock s).statuses,
      st = s.job.Status ∨ st = StatusScanning ∨ st = StatusProcessing ∨ st = StatusFailed ∨
      (st = StatusCompleted ∧ env.profileFound = true ∧ env.scanErr = none ∧
        s.job.Pages ++ env.scanned.filter (fun p => !(s.heap p).hasErr) ≠ [] ∧
        env.processErr = none ∧ env.sendErr = none) := by
  intro st hst
  obtain ⟨hpages, hscanned⟩ := scanned_pages clock env s
  have hstart : ∀ st ∈ (Run.call clock (Run.start s) (fun s _ => SetCancel s)).statuses,
      st = s.job.Status := by
    intro st h
    rcases mem_call clock _ _ st h with h1 | h1
    · simp [Run.start, Run.statuses] at h1
    · exact h1
  unfold processJob at hst
  simp only [] at hst
  split at hst
  · rcases mem_call clock _ _ st hst with h | h
    · exact Or.inl (hstart st h)
    · exact Or.inr (Or.inr (Or.inr (Or.inl h)))
  · rename_i hprof
    split at hst
    · rcases mem_call clock _ _ st hst with h | h
      · rcases mem_call clock _ _ st h with h1 | h1
        · exact Or.inl (hstart st h1)
        · exact Or.inr (Or.inl h1)
      · exact Or.inr (Or.inr (Or.inr (Or.inl h)))
    · rename_i hscan
      have hsc : ∀ st ∈ (addScanned clock (Run.call clock (Run.call clock (Run.start s)
          (fun s _ => SetCancel s)) (fun s now => SetStatus s StatusScanning now))
          env.scanned).statuses,
          st = s.job.Status ∨ st = StatusScanning ∨ st = StatusProcessing ∨ st = StatusFailed ∨
          (st = StatusCompleted ∧ env.profileFound = true ∧ env.scanErr = none ∧
            s.job.Pages ++ env.scanned.filter (fun p => !(s.heap p).hasErr) ≠ [] ∧
            env.processErr = none ∧ env.sendErr = none) := by
        intro st h
        rcases hscanned st h with h1 | h1
        · exact Or.inl h1
        · exact Or.inr (Or.inl h1)
      split at hst
      · rcases mem_call clock _ _ st hst with h | h
        · exact hsc st h
        · exact Or.inr (Or.inr (Or.inr (Or.inl h)))
      · rename_i hcount
        have hne : s.job.Pages ++ env.scanned.filter (fun p => !(s.heap p).hasErr) ≠ [] := by
          intro h
          apply hcount
          unfold PageCount
          rw [hpages, h]
          rfl
        have hproc : ∀ st ∈ (Run.call clock (addScanned clock (Run.call clock (Run.call clock
            (Run.start s) (fun s _ => SetCancel s))
            (fun s now => SetStatus s StatusScanning now)) env.scanned)
            (fun s now => SetStatus s StatusProcessing now)).statuses,
            st = s.job.Status ∨ st = StatusScanning ∨ st = StatusProcessing ∨
            st = StatusFailed ∨
            (st = StatusCompleted ∧ env.profileFound = true ∧ env.scanErr = none ∧
              s.job.Pages ++ env.scanned.filter (fun p => !(s.heap p).hasErr) ≠ [] ∧
              env.processErr = none ∧ env.sendErr = none) := by
          intro st h
          rcases mem_call clock _ _ st h with h1 | h1
          · exact hsc st h1
          · exact Or.inr (Or.inr (Or.inl h1))
        split at hst
        · rcases mem_call clock _ _ st hst with h | h
          · exact hproc st h
          · exact Or.inr (Or.inr (Or.inr (Or.inl h)))
        · rename_i hperr
          split at hst
          · rcases mem_call clock _ _ st hst with h | h
            · exact hproc st h
            · exact Or.inr (Or.inr (Or.inr (Or.inl h)))
          · rename_i hserr
            rcases mem_call clock _ _ st hst with h | h
            · exact hproc st h
            · refine Or.inr (Or.inr (Or.inr (Or.inr ⟨h, ?_, hscan, hne, hperr, hserr⟩)))
              simpa using hprof

theorem processJob_cur (env : WorkerEnv) (clock : Nat → Int) (s : JobState)
    (hprof : env.profileFound = true) (hscan : env.scanErr = none)
    (hpages : s.job.Pages ++ env.scanned.filter (fun p => !(s.heap p).hasErr) ≠ []) :
    (∀ e, env.processErr = some e →
      (processJob env clock s).cur.job.Status = StatusFailed ∧
      (processJob env clock s).cur.job.Error = "processing failed: " ++ e) ∧
    (∀ e, env.processErr = none → env.sendErr = some e →
      (processJob env clock s).cur.job.Status = StatusFailed ∧
      (processJob env clock s).cur.job.Error = "output failed: " ++ e) ∧
    (env.processErr = none → env.sendErr = none →
      (processJob env clock s).cur.job.Status = StatusCompleted) := by
  have hcount : ¬ PageCount (addScanned clock (Run.call clock (Run.call clock (Run.start s)
      (fun s _ => SetCancel s)) (fun s now => SetStatus s StatusScanning now))
      env.scanned).cur = 0 := by
    unfold PageCount
    rw [(scanned_pages clock env s).1]
    intro h
    exact hpages (List.length_eq_zero.mp h)
  refine ⟨?_, ?_, ?_⟩
  · intro e he
    unfold processJob
    simp only [hprof, hscan, he, hcount, Bool.not_true, Bool.false_eq_true, if_false]
    exact ⟨rfl, rfl⟩
  · intro e hp he
    unfold processJob
    simp only [hprof, hscan, hp, he, hcount, Bool.not_true, Bool.false_eq_true, if_false]
    exact ⟨rfl, rfl⟩
  · intro hp he
    unfold processJob
    simp only [hprof, hscan, hp, he, hcount, Bool.not_true, Bool.false_eq_true, if_false]
    rfl

/-- C26: take a job that is not Completed when the worker takes it, a profile
that is found and a scan that starts and leaves the job with at least one page,
so that `Process` is called. If `Process` returns an error, or `Process`
succeeds and the dispatcher returns an error, the job ends Failed, its Error is
"processing failed: " or "output failed: " followed by the cause, hence not
empty, and no call of the run sets Completed. In any run, the status Completed
is set only if the profile was found, the scan started, the job has at least
one page (a scanned one, for a job that had none), and `Process` and the
dispatcher both returned without error. -/
theorem processJob_outcome (env : WorkerEnv) (clock : Nat → Int) (s : JobState)
    (h0 : s.job.Status ≠ StatusCompleted) :
    (∀ e, env.profileFound = true → env.scanErr = none →
      s.job.Pages ++ env.scanned.filter (fun p => !(s.heap p).hasErr) ≠ [] →
      (env.processErr = some e →
        (processJob env clock s).cur.job.Status = StatusFailed ∧
        (processJob env clock s).cur.job.Error = "processing failed: " ++ e ∧
        (processJob env clock s).cur.job.Error ≠ "" ∧
        StatusCompleted ∉ (processJob env clock s).statuses) ∧
      (env.processErr = none → env.sendErr = some e →
        (processJob env clock s).cur.job.Status = StatusFailed ∧
        (processJob env clock s).cur.job.Error = "output failed: " ++ e ∧
        (processJob env clock s).cur.job.Error ≠ "" ∧
        StatusCompleted ∉ (processJob env clock s).statuses)) ∧
    (StatusCompleted ∈ (processJob env clock s).statuses →
      env.profileFound = true ∧ env.scanErr = none ∧
      s.job.Pages ++ env.scanned.filter (fun p => !(s.heap p).hasErr) ≠ [] ∧
      (s.job.Pages = [] → ∃ p ∈ env.scanned, (s.heap p).hasErr = false) ∧
      env.processErr = none ∧ env.sendErr = none ∧
      (processJob env clock s).cur.job.Status = StatusCompleted) := by
  have hcompl : StatusCompleted ∈ (processJob env clock s).statuses →
      env.profileFound = true ∧ env.scanErr = none ∧
      s.job.Pages ++ env.scanned.filter (fun p => !(s.heap p).hasErr) ≠ [] ∧
      env.processErr = none ∧ env.sendErr = none := by
    intro h
    rcases processJob_statuses env clock s StatusCompleted h with h1 | h1 | h1 | h1 | h1
    · exact absurd h1.symm h0
    · exact absurd h1 (by decide)
    · exact absurd h1 (by decide)
    · exact absurd h1 (by decide)
    · exact h1.2
  constructor
  · intro e hprof hscan hpages
    obtain ⟨h1, h2, _⟩ := processJob_cur env clock s hprof hscan hpages
    constructor
    · intro he
      obtain ⟨h3, h4⟩ := h1 e he
      refine ⟨h3, h4, ?_, ?_⟩
      · rw [h4]
        exact failed_message _ _ (by decide)
      · intro h
        have := (hcompl h).2.2.2.1
        rw [he] at this
        exact absurd this (by simp)
    · intro hp he
      obtain ⟨h3, h4⟩ := h2 e hp he
      refine ⟨h3, h4, ?_, ?_⟩
      · rw [h4]
        exact failed_message _ _ (by decide)
      · intro h
        have := (hcompl h).2.2.2.2
        rw [he] at this
        exact absurd this (by simp)
  · intro h
    obtain ⟨hprof, hscan, hpages, hp, he⟩ := hcompl h
    refine ⟨hprof, hscan, hpages, ?_, hp, he,
      (processJob_cur env clock s hprof hscan hpages).2.2 hp he⟩
    intro hnil
    rw [hnil, List.nil_append] at hpages
    obtain ⟨p, hmem⟩ := List.exists_mem_of_ne_nil _ hpages
    obtain ⟨h1, h2⟩ := List.mem_filter.mp hmem
    exact ⟨p, h1, by simpa using h2⟩

/-- Witness of `processJob_outcome`: a new job, two pages scanned, and a
`Process` that fails. -/
theorem processJob_outcome_witness :
    (NewJob heapSeq 0).job.Status ≠ StatusCompleted ∧
    (processJob envProcessFails (fun k => (k : Int)) (NewJob heapSeq 0)).cur.job.Status
      = StatusFailed ∧
    (processJob envProcessFails (fun k => (k : Int)) (NewJob heapSeq 0)).cur.job.Error
      = "processing failed: " ++ "create PDF: exit status 1" ∧
    StatusCompleted ∉
      (processJob envProcessFails (fun k => (k : Int)) (NewJob heapSeq 0)).statuses :=
  have h := ((processJob_outcome envProcessFails (fun k => (k : Int)) (NewJob heapSeq 0)
    (by decide)).1 "create PDF: exit status 1" rfl rfl (by decide)).1 rfl
  ⟨by decide, h.1, h.2.1, h.2.2.2⟩

/-! ## Theorems: e-mail attachment -/

theorem decodeChar_encode : ∀ v, v < 64 → decodeChar (encode v) = some v := by decide

theorem encode_ne_pad : ∀ v, v < 64 → encode v ≠ '='.toNat := by decide

theorem DecodeString_EncodeToString :
    ∀ data : List Nat, (∀ b ∈ data, b < 256) → DecodeString (EncodeToString data) = some data
  | [], _ => rfl
  | [b0], h => by
    have h0 : b0 < 256 := h b0 (by simp)
    have e2 : encode (b0 * 65536 / 4096 % 64) ≠ '='.toNat := encode_ne_pad _ (Nat.mod_lt _ (by decide))
    simp only [EncodeToString, DecodeString, and_self, if_true,
      decodeChar_encode _ (Nat.mod_lt (b0 * 65536 / 262144) (by decide : 0 < 64)),
      decodeChar_encode _ (Nat.mod_lt (b0 * 65536 / 4096) (by decide : 0 < 64))]
    congr 2
    omega
  | [b0, b1], h => by
    have h0 : b0 < 256 := h b0 (by simp)
    have h1 : b1 < 256 := h b1 (by simp)
    have e2 : encode ((b0 * 65536 + b1 * 256) / 64 % 64) ≠ '='.toNat :=
      encode_ne_pad _ (Nat.mod_lt _ (by decide))
    simp only [EncodeToString, DecodeString, and_self, if_true, e2, if_false,
      decodeChar_encode _ (Nat.mod_lt ((b0 * 65536 + b1 * 256) / 262144) (by decide : 0 < 64)),
      decodeChar_encode _ (Nat.mod_lt ((b0 * 65536 + b1 * 256) / 4096) (by decide : 0 < 64)),
      decodeChar_encode _ (Nat.mod_lt ((b0 * 65536 + b1 * 256) / 64) (by decide : 0 < 64))]
    congr 2
    · omega
    · congr 1
      omega
  | b0 :: b1 :: b2 :: rest, h => by
    have h0 : b0 < 256 := h b0 (by simp)
    have h1 : b1 < 256 := h b1 (by simp)
    have h2 : b2 < 256 := h b2 (by simp)
    have ih := DecodeString_EncodeToString rest (fun b hb => h b (by simp [hb]))
    have e3 : encode ((b0 * 65536 + b1 * 256 + b2) % 64) ≠ '='.toNat :=
      encode_ne_pad _ (Nat.mod_lt _ (by decide))
    simp only [EncodeToString, DecodeString, e3, and_false, if_false, ih,
      decodeChar_encode _ (Nat.mod_lt ((b0 * 65536 + b1 * 256 + b2) / 262144) (by decide : 0 < 64)),
      decodeChar_encode _ (Nat.mod_lt ((b0 * 65536 + b1 * 256 + b2) / 4096) (by decide : 0 < 64)),
      decodeChar_encode _ (Nat.mod_lt ((b0 * 65536 + b1 * 256 + b2) / 64) (by decide : 0 < 64)),
      decodeChar_encode _ (Nat.mod_lt (b0 * 65536 + b1 * 256 + b2) (by decide : 0 < 64))]
    have a0 : ((b0 * 65536 + b1 * 256 + b2) / 262144 % 64 * 4
      + (b0 * 65536 + b1 * 256 + b2) / 4096 % 64 / 16) % 256 = b0 := by omega
    have a1 : ((b0 * 65536 + b1 * 256 + b2) / 4096 % 64 * 16
      + (b0 * 65536 + b1 * 256 + b2) / 64 % 64 / 4) % 256 = b1 := by omega
    have a2 : ((b0 * 65536 + b1 * 256 + b2) / 64 % 64 * 64
      + (b0 * 65536 + b1 * 256 + b2) % 64) % 256 = b2 := by omega
    rw [a0, a1, a2]
theorem encode_ne_break : ∀ v, v < 64 → encode v ≠ '\r'.toNat ∧ encode v ≠ '\n'.toNat := by
  decide

theorem EncodeToString_no_break :
    ∀ data : List Nat, ∀ c ∈ EncodeToString data, c ≠ '\r'.toNat ∧ c ≠ '\n'.toNat
  | [], c, hc => by simp [EncodeToString] at hc
  | [b0], c, hc => by
    simp only [EncodeToString, List.mem_cons, List.mem_singleton, List.not_mem_nil,
      or_false] at hc
    rcases hc with h | h | h | h
    · rw [h]; exact encode_ne_break _ (Nat.mod_lt _ (by decide))
    · rw [h]; exact encode_ne_break _ (Nat.mod_lt _ (by decide))
    · rw [h]; decide
    · rw [h]; decide
  | [b0, b1], c, hc => by
    simp only [EncodeToString, List.mem_cons, List.mem_singleton, List.not_mem_nil,
      or_false] at hc
    rcases hc with h | h | h | h
    · rw [h]; exact encode_ne_break _ (Nat.mod_lt _ (by decide))
    · rw [h]; exact encode_ne_break _ (Nat.mod_lt _ (by decide))
    · rw [h]; exact encode_ne_break _ (Nat.mod_lt _ (by decide))
    · rw [h]; decide
  | b0 :: b1 :: b2 :: rest, c, hc => by
    simp only [EncodeToString, List.mem_cons] at hc
    rcases hc with h | h | h | h | h
    · rw [h]; exact encode_ne_break _ (Nat.mod_lt _ (by decide))
    · rw [h]; exact encode_ne_break _ (Nat.mod_lt _ (by decide))
    · rw [h]; exact encode_ne_break _ (Nat.mod_lt _ (by decide))
    · rw [h]; exact encode_ne_break _ (Nat.mod_lt _ (by decide))
    · exact EncodeToString_no_break rest c h

theorem EncodeToString_example :
    EncodeToString ("Ma".toList.map Char.toNat) = "TWE=".toList.map Char.toNat ∧
    EncodeToString ("Man".toList.map Char.toNat) = "TWFu".toList.map Char.toNat := by
  decide

theorem lines76_nil : lines76 [] = [] := by
  rw [lines76]; simp

theorem lines76_cons (l : List Nat) (h : l ≠ []) :
    lines76 l = l.take 76 :: lines76 (l.drop 76) := by
  rw [lines76]; simp [h]

theorem slice_eq (l : List Nat) (i : Nat) :
    (l.take (if i + 76 > l.length then l.length else i + 76)).drop i = (l.drop i).take 76 := by
  split
  · rename_i h
    rw [List.take_length]
    rw [List.take_of_length_le]
    simp only [List.length_drop]
    omega
  · rw [List.drop_take]
    simp

theorem wrapLoop_lines (encoded : List Nat) :
    ∀ (n i : Nat) (msg : List Nat), encoded.length - i = n →
      wrapLoop encoded i msg
        = msg ++ ((lines76 (encoded.drop i)).map (fun l => l ++ ['\r'.toNat, '\n'.toNat])).flatten := by
  intro n
  induction n using Nat.strong_induction_on with
  | _ n ih =>
    intro i msg hn
    rw [wrapLoop]
    by_cases hi : i < encoded.length
    · have hne : encoded.drop i ≠ [] := by
        intro h
        have := congrArg List.length h
        simp at this
        omega
      simp only [hi, if_true]
      rw [ih (encoded.length - (i + 76)) (by omega) (i + 76) _ rfl, slice_eq,
        lines76_cons _ hne, List.drop_drop]
      simp [Nat.add_comm]
    · have hnil : encoded.drop i = [] := List.drop_eq_nil_of_le (by omega)
      simp [hi, hnil, lines76_nil]

theorem lines76_spec (l : List Nat) :
    ∀ n, l.length = n →
    (lines76 l).flatten = l ∧ (∀ x ∈ lines76 l, 1 ≤ x.length ∧ x.length ≤ 76) ∧
    (∀ x ∈ (lines76 l).dropLast, x.length = 76) := by
  intro n
  induction n using Nat.strong_induction_on generalizing l with
  | _ n ih =>
    intro hn
    by_cases h : l = []
    · subst h
      simp [lines76_nil]
    · have hpos : 0 < l.length := List.length_pos.mpr h
      obtain ⟨h1, h2, h3⟩ := ih (l.drop 76).length (by simp; omega) (l.drop 76) rfl
      rw [lines76_cons l h]
      refine ⟨?_, ?_, ?_⟩
      · rw [List.flatten_cons, h1, List.take_append_drop]
      · intro x hx
        rcases List.mem_cons.mp hx with hx | hx
        · subst hx
          simp only [List.length_take]
          omega
        · exact h2 x hx
      · intro x hx
        by_cases hr : lines76 (l.drop 76) = []
        · simp [hr] at hx
        · rw [List.dropLast_cons_of_ne_nil hr] at hx
          rcases List.mem_cons.mp hx with hx | hx
          · subst hx
            have hd : l.drop 76 ≠ [] := by
              intro hd
              rw [hd, lines76_nil] at hr
              exact hr rfl
            have := List.length_pos.mpr hd
            simp only [List.length_drop] at this
            simp only [List.length_take]
            omega
          · exact h3 x hx

/-- C28: for every document, given as bytes, the attachment body that
`EmailHandler.Send` writes is the standard base64 encoding of the bytes cut into
lines, each followed by CRLF; every line has between 1 and 76 characters and
holds no CR or LF, every line but the last has exactly 76, and the lines
concatenated are the encoding, which decodes to the document bytes. -/
theorem attachmentBody_lines (data : List Nat) (h : ∀ b ∈ data, b < 256) :
    attachmentBody data
      = ((lines76 (EncodeToString data)).map
          (fun l => l ++ ['\r'.toNat, '\n'.toNat])).flatten ∧
    (lines76 (EncodeToString data)).flatten = EncodeToString data ∧
    (∀ l ∈ lines76 (EncodeToString data),
      1 ≤ l.length ∧ l.length ≤ 76 ∧ '\r'.toNat ∉ l ∧ '\n'.toNat ∉ l) ∧
    (∀ l ∈ (lines76 (EncodeToString data)).dropLast, l.length = 76) ∧
    DecodeString (lines76 (EncodeToString data)).flatten = some data := by
  obtain ⟨h1, h2, h3⟩ := lines76_spec (EncodeToString data) _ rfl
  refine ⟨?_, h1, ?_, h3, ?_⟩
  · unfold attachmentBody
    rw [wrapLoop_lines (EncodeToString data) _ 0 [] rfl]
    simp
  · intro l hl
    have hsub : ∀ c ∈ l, c ∈ EncodeToString data := by
      intro c hc
      rw [← h1]
      exact List.mem_flatten.mpr ⟨l, hl, hc⟩
    refine ⟨(h2 l hl).1, (h2 l hl).2, ?_, ?_⟩
    · intro hc
      exact (EncodeToString_no_break data _ (hsub _ hc)).1 rfl
    · intro hc
      exact (EncodeToString_no_break data _ (hsub _ hc)).2 rfl
  · rw [h1]
    exact DecodeString_EncodeToString data h

/-- Witness of `attachmentBody_lines`: the three bytes of "Man". -/
theorem attachmentBody_lines_witness :
    (∀ b ∈ "Man".toList.map Char.toNat, b < 256) ∧
    DecodeString (lines76 (EncodeToString ("Man".toList.map Char.toNat))).flatten
      = some ("Man".toList.map Char.toNat) :=
  ⟨by decide, (attachmentBody_lines ("Man".toList.map Char.toNat) (by decide)).2.2.2.2⟩

end ScanFlow
